import Mathlib

/-!
Verification of the grounding / self-correction pipeline of the hotel
booking assistant (app/services/hallucination_manager.py,
app/services/data_fusion_validator.py, app/services/llm_engine.py).

The Python code manipulates dynamic JSON-shaped values.  We shallowly embed
the fragment of Python semantics the pipeline touches: scalar values
(None / str / numbers), truthiness, `str()` conversion, `float()` parsing,
`str.strip` / `str.lower` / `str.replace`, substring tests, the regex
`[\d.]+` first-match extraction, and `", ".join`.  Operations that can
raise in Python are modelled in an `Except PyError` monad; operations the
code always guards with `try/except` are modelled as `Option`-returning
parsers.

Numbers are modelled as exact decimal fractions `Q` (an integer numerator
with a power-of-ten denominator — every numeric literal the pipeline
parses or compares is decimal), with an interpretation `Q.toRat` used to
state the specification-level meaning of the comparisons.

Container shapes (the hotel lists and the per-hotel dicts restricted to
the `name` / `price` / `rating` keys that the pipeline reads) are modelled
with typed structures; individual field VALUES stay dynamic, which is
where all of the malformed-data behaviour of the source lives.
-/

/-- An exact decimal number `num / 10 ^ exp` (Python ints and the decimal
floats the pipeline manipulates). -/
structure Q where
  num : Int
  exp : Nat
deriving DecidableEq, Repr

/-- The rational value of a `Q`. -/
def Q.toRat (a : Q) : Rat := (a.num : Rat) / 10 ^ a.exp

/-- Negation. -/
def qNeg (a : Q) : Q := ⟨-a.num, a.exp⟩

/-- Absolute value. -/
def qAbs (a : Q) : Q := ⟨|a.num|, a.exp⟩

/-- Embedding of a natural number. -/
def qOfNat (n : Nat) : Q := ⟨n, 0⟩

/-- Exact difference. -/
def qSub (a b : Q) : Q := ⟨a.num * 10 ^ b.exp - b.num * 10 ^ a.exp, a.exp + b.exp⟩

/-- Value comparison `a < b` by cross multiplication. -/
def qLtB (a b : Q) : Bool := decide (a.num * 10 ^ b.exp < b.num * 10 ^ a.exp)

/-- Value comparison `a > b`. -/
def qGtB (a b : Q) : Bool := qLtB b a

/-- Value equality (Python `==` on numbers). -/
def qEqB (a b : Q) : Bool := decide (a.num * 10 ^ b.exp = b.num * 10 ^ a.exp)

/-- Python `min` of two numbers (keeps the accumulator on ties). -/
def qMinB (acc x : Q) : Q := if qLtB x acc then x else acc

/-- Python `max` of two numbers (keeps the accumulator on ties). -/
def qMaxB (acc x : Q) : Q := if qGtB x acc then x else acc

/-- A dynamic Python scalar value as it appears in the hotel records:
`None`, a string, or a number. -/
inductive Value where
  | vNone
  | vStr (s : String)
  | vNum (q : Q)
deriving DecidableEq, Repr

/-- The Python exceptions the pipeline can actually raise (everything else
is caught by the `try/except` blocks in the source). -/
inductive PyError where
  | attributeError
  | typeError
deriving DecidableEq, Repr

/-- Python truthiness for the modelled scalars: `None`, `""` and numeric
zero are falsy. -/
def pyTruthy : Value → Bool
  | Value.vNone => false
  | Value.vStr s => decide (s ≠ "")
  | Value.vNum q => decide (q.num ≠ 0)

/-- `dict.get(k)` convention: an absent key behaves like the value `None`. -/
def getVal (o : Option Value) : Value := o.getD Value.vNone

/-- Python whitespace as stripped by `str.strip()`. -/
def pyWSChar (c : Char) : Bool :=
  c = ' ' || c = '\t' || c = '\n' || c = '\x0d' || c = '\x0b' || c = '\x0c'

/-- Python `s.strip()`. -/
def strTrim (s : String) : String :=
  String.mk (((s.data.dropWhile pyWSChar).reverse.dropWhile pyWSChar).reverse)

/-- ASCII lower-casing of one character (the names the pipeline folds are
ASCII; Python `str.lower` restricted accordingly). -/
def lowerChar (c : Char) : Char :=
  if 'A' ≤ c ∧ c ≤ 'Z' then Char.ofNat (c.toNat + 32) else c

/-- Python `s.lower()`. -/
def strLower (s : String) : String := String.mk (s.data.map lowerChar)

/-- `needle` occurs as a contiguous run inside `hay`. -/
def charsInfix (needle : List Char) : List Char → Bool
  | [] => needle.isEmpty
  | c :: rest => needle.isPrefixOf (c :: rest) || charsInfix needle rest

/-- Python `needle in hay` for strings. -/
def strContains (hay needle : String) : Bool := charsInfix needle.data hay.data

/-- Fuel-driven worker for `removeOccs`. -/
def removeOccsAux (old : List Char) : Nat → List Char → List Char
  | 0, l => l
  | _ + 1, [] => []
  | n + 1, c :: rest =>
    if old.isPrefixOf (c :: rest) then
      removeOccsAux old n ((c :: rest).drop old.length)
    else
      c :: removeOccsAux old n rest

/-- Python `s.replace(old, "")`: delete all non-overlapping occurrences of
`old`, scanning left to right. -/
def removeOccs (old s : String) : String :=
  String.mk (removeOccsAux old.data s.data.length s.data)

/-- `int("d...d")` on a run of decimal digits. -/
def digitsToNat (l : List Char) : Nat :=
  l.foldl (fun a c => a * 10 + (c.toNat - 48)) 0

/-- A character matched by the regex class `[\d.]`. -/
def isNumChar (c : Char) : Bool := c.isDigit || c = '.'

/-- Python `float(t)` on a token drawn from the regex `[\d.]+` (only digits
and dots): succeeds iff there is at most one dot and at least one digit. -/
def parseTok (t : List Char) : Option Q :=
  if (t.filter (fun c => c = '.')).length ≤ 1 ∧
      (t.filter Char.isDigit).length ≥ 1 ∧ t.all isNumChar then
    match t.span (fun c => c ≠ '.') with
    | (ip, []) => some ⟨digitsToNat ip, 0⟩
    | (ip, _ :: fp) => some ⟨digitsToNat ip * 10 ^ fp.length + digitsToNat fp, fp.length⟩
  else
    none

/-- `re.search(r"[\d.]+", s)`: the first maximal run of digits/dots, if any. -/
def extractTok : List Char → Option (List Char)
  | [] => none
  | c :: rest =>
    if isNumChar c then some (c :: rest.takeWhile isNumChar) else extractTok rest

/-- Python `float(s)` on an arbitrary string of the decimal fragment the
pipeline feeds it: optional surrounding whitespace, optional sign, then a
digits-and-dots body with at most one dot and at least one digit. -/
def pyFloatStr (s : String) : Option Q :=
  match (strTrim s).data with
  | '-' :: rest => (parseTok rest).map qNeg
  | '+' :: rest => parseTok rest
  | l => parseTok l

/-- Python `float(v)` on a dynamic value; `none` stands for the
`ValueError`/`TypeError` outcomes that every call site catches together. -/
def pyFloat : Value → Option Q
  | Value.vNone => none
  | Value.vStr s => pyFloatStr s
  | Value.vNum q => some q

/-- Decimal digits of the fraction `fr / den` (`0 < fr < den`), by long
division, up to the given fuel (denominators are powers of ten, so the
division terminates within `exp` digits for the values the pipeline
meets). -/
def fracDigitsAux : Nat → Nat → Nat → List Char
  | 0, _, _ => []
  | n + 1, fr, den =>
    if fr = 0 then []
    else
      let m := fr * 10
      Char.ofNat (48 + m / den) :: fracDigitsAux n (m % den) den

/-- Python `str()` of a number (floats print with a decimal point, e.g.
`str(4.5) = "4.5"`, `str(4.0) = "4.0"`). -/
def ratStr (q : Q) : String :=
  let sign := if q.num < 0 then "-" else ""
  let n := q.num.natAbs
  let den := 10 ^ q.exp
  let ip := n / den
  let fr := n % den
  if fr = 0 then
    sign ++ toString ip ++ ".0"
  else
    sign ++ toString ip ++ "." ++ String.mk (fracDigitsAux 30 fr den)

/-- Python `str(v)` for the modelled scalars (total, never raises). -/
def pyStr : Value → String
  | Value.vNone => "None"
  | Value.vStr s => s
  | Value.vNum q => ratStr q

/-- `v.strip()`: works on strings, raises `AttributeError` otherwise
(this is the un-guarded method call on claim names in the source). -/
def pyStripVal : Value → Except PyError String
  | Value.vStr s => Except.ok (strTrim s)
  | _ => Except.error PyError.attributeError

/-- `v.lower()`: works on strings, raises `AttributeError` otherwise. -/
def pyLowerVal : Value → Except PyError String
  | Value.vStr s => Except.ok (strLower s)
  | _ => Except.error PyError.attributeError

/-- `v.lower().strip()` as used on the fact-side names. -/
def pyLowerStrip : Value → Except PyError String
  | Value.vStr s => Except.ok (strTrim (strLower s))
  | _ => Except.error PyError.attributeError

/-- `", ".join(vs)`: every element must be a string, otherwise Python
raises `TypeError` (this hits the raw `h.get("name")` values, which may be
`None`). -/
def pyJoinComma : List Value → Except PyError String
  | [] => Except.ok ""
  | [Value.vStr s] => Except.ok s
  | Value.vStr s :: rest => do
      let r ← pyJoinComma rest
      Except.ok (s ++ ", " ++ r)
  | _ => Except.error PyError.typeError

/-- The rating normalization chain of the source (used identically in
`verify_grounding`, `check_consistency` and `check_plausibility`):
`str(v).replace("star", "").replace("stars", "").strip()`, then
`re.search(r"[\d.]+", ...)`, then `float` on the matched token; `none`
stands for the silently-caught parse failures. -/
def ratingParse (v : Value) : Option Q :=
  match extractTok (strTrim (removeOccs "stars" (removeOccs "star" (pyStr v)))).data with
  | some t => parseTok t
  | none => none

/-- One hotel record as the pipeline reads it (only the `name` / `price` /
`rating` keys are ever accessed); `Option.none` models an absent key. -/
structure Hotel where
  name : Option Value := Option.none
  price : Option Value := Option.none
  rating : Option Value := Option.none
deriving DecidableEq, Repr

/-- The fact-source payload `api_data` restricted to the key the pipeline
reads: `top_hotels` (absent key modelled as `Option.none`). -/
structure ApiData where
  top_hotels : Option (List Hotel) := Option.none
deriving DecidableEq, Repr

/-- The generator claims dict `llm_claims` restricted to the keys read:
`top_hotels` with a `hotels` fallback. -/
structure LlmClaims where
  top_hotels : Option (List Hotel) := Option.none
  hotels : Option (List Hotel) := Option.none
deriving DecidableEq, Repr

/-- `api_data.get("top_hotels", [])`. -/
def apiHotels (a : ApiData) : List Hotel := a.top_hotels.getD []

/-- `llm_claims.get("top_hotels", llm_claims.get("hotels", []))`. -/
def llmHotels (c : LlmClaims) : List Hotel :=
  match c.top_hotels with
  | some l => l
  | Option.none => c.hotels.getD []

/-- The spec taxonomy of issue kinds (§3 of the spec), plus one extra tag
for the data-fusion validator findings, which live outside that taxonomy. -/
inductive Kind where
  | hallucinatedEntity
  | countMismatch
  | missingName
  | priceContradiction
  | ratingContradiction
  | invalidFormat
  | duplicateEntity
  | invalidRange
  | implausibleValue
  | suspiciousUniformity
  | unsupportedOverconfidence
  | unsupportedSuperlative
  | unsupportedNumeric
  | fusionConcern
deriving DecidableEq, Repr

/-- One detected issue.  The source emits strings; each constructor stands
for one distinct emission site and carries the data interpolated into that
message. -/
inductive Issue where
  | emptyApiHallucination
  | countMismatch (nLlm nApi : Nat)
  | missingName
  | hallucinatedHotel (llmName : String) (available : String)
  | priceMismatch (name : String) (lp ap : Value)
  | invalidPriceFormat (name : String) (lp ap : Value)
  | ratingMismatch (name : String) (lr ar : Value)
  | duplicateNames (names : List String)
  | missingNameAt (i : Nat)
  | negativePrice (name : Value) (p : Value)
  | invalidRatingRange (name : Value) (r : Value)
  | lowPrice (p : Q)
  | highPrice (p : Q)
  | uniformPrices (p : Q)
  | uniformRatings (r : Q)
  | overconfident (pat : String)
  | vagueClaim (pat : String)
  | unsupportedPrices (toks : List String)
  | fusionIgnoredApi
  | fusionNameMismatch
  | fusionNoMention
  | fusionNoValue
  | fusionWarning
  | fusionPriceModified (name : Value) (lp ap : Value)
  | fusionLacksFacts
  | fusionLacksReasoning
deriving DecidableEq, Repr

/-- The kind of each emission site, following the spec mapping: the
empty-fact-set CRITICAL message and the per-claim HALLUCINATED HOTEL
message are `HallucinatedEntity`; INVALID DATA (nameless claim) and the
consistency missing-name message are `MissingName`; and so on. -/
def Issue.kind : Issue → Kind
  | Issue.emptyApiHallucination => Kind.hallucinatedEntity
  | Issue.countMismatch _ _ => Kind.countMismatch
  | Issue.missingName => Kind.missingName
  | Issue.hallucinatedHotel _ _ => Kind.hallucinatedEntity
  | Issue.priceMismatch _ _ _ => Kind.priceContradiction
  | Issue.invalidPriceFormat _ _ _ => Kind.invalidFormat
  | Issue.ratingMismatch _ _ _ => Kind.ratingContradiction
  | Issue.duplicateNames _ => Kind.duplicateEntity
  | Issue.missingNameAt _ => Kind.missingName
  | Issue.negativePrice _ _ => Kind.invalidRange
  | Issue.invalidRatingRange _ _ => Kind.invalidRange
  | Issue.lowPrice _ => Kind.implausibleValue
  | Issue.highPrice _ => Kind.implausibleValue
  | Issue.uniformPrices _ => Kind.suspiciousUniformity
  | Issue.uniformRatings _ => Kind.suspiciousUniformity
  | Issue.overconfident _ => Kind.unsupportedOverconfidence
  | Issue.vagueClaim _ => Kind.unsupportedSuperlative
  | Issue.unsupportedPrices _ => Kind.unsupportedNumeric
  | Issue.fusionIgnoredApi => Kind.fusionConcern
  | Issue.fusionNameMismatch => Kind.fusionConcern
  | Issue.fusionNoMention => Kind.fusionConcern
  | Issue.fusionNoValue => Kind.fusionConcern
  | Issue.fusionWarning => Kind.fusionConcern
  | Issue.fusionPriceModified _ _ _ => Kind.fusionConcern
  | Issue.fusionLacksFacts => Kind.fusionConcern
  | Issue.fusionLacksReasoning => Kind.fusionConcern

/-- Number of issues of a given kind in a list. -/
def countKind (l : List Issue) (k : Kind) : Nat :=
  (l.filter (fun i => i.kind = k)).length

/-- The critical kind set exactly as §3 of the spec states it. -/
def criticalKinds : List Kind :=
  [Kind.hallucinatedEntity, Kind.priceContradiction, Kind.ratingContradiction,
   Kind.countMismatch, Kind.invalidFormat]

/-- The critical kind set the code actually realizes: every kind the
Grounding Verifier can emit, i.e. the spec set plus `MissingName`. -/
def criticalKindsAmended : List Kind :=
  [Kind.hallucinatedEntity, Kind.priceContradiction, Kind.ratingContradiction,
   Kind.countMismatch, Kind.invalidFormat, Kind.missingName]

/-- Insert-or-overwrite on an association list: an existing key keeps its
position and gets the new value, as a Python dict assignment does. -/
def upsert (m : List (String × Hotel)) (k : String) (h : Hotel) : List (String × Hotel) :=
  match m with
  | [] => [(k, h)]
  | (k0, h0) :: t => if k0 = k then (k0, h) :: t else (k0, h0) :: upsert t k h

/-- `hallucination_manager.py` lines 58-62: build the fact-side
name-to-record index, skipping records whose normalized name is empty;
`.lower().strip()` raises on a non-string name value. -/
def buildApiMap (acc : List (String × Hotel)) : List Hotel → Except PyError (List (String × Hotel))
  | [] => Except.ok acc
  | h :: t => do
    let k ← pyLowerStrip (h.name.getD (Value.vStr ""))
    buildApiMap (if k = "" then acc else upsert acc k h) t

/-- `dict.get(name_key)` on the index. -/
def mapGet (m : List (String × Hotel)) (k : String) : Option Hotel :=
  (m.find? (fun p => p.fst = k)).map Prod.snd

/-- `hallucination_manager.py` line 84: the fuzzy name condition of the
source, literally `(name_key in api_name or api_name in name_key) and
len(name_key) > 5` — note the length guard is on the CLAIM name. -/
def nameSimilar (nameKey apiName : String) : Bool :=
  (strContains apiName nameKey || strContains nameKey apiName) && decide (nameKey.length > 5)

/-- `hallucination_manager.py` lines 98-122 (Heuristic 5): the price check
for a matched (claim, fact) pair: both present → parse both,
`InvalidFormat` on failure, `PriceContradiction` beyond the 1.0 tolerance. -/
def priceChecks (llmName : String) (lh mh : Hotel) : List Issue :=
  if getVal lh.price ≠ Value.vNone ∧ getVal mh.price ≠ Value.vNone then
    match pyFloat (getVal lh.price), pyFloat (getVal mh.price) with
    | some x, some y =>
        if qGtB (qAbs (qSub x y)) (qOfNat 1) then
          [Issue.priceMismatch llmName (getVal lh.price) (getVal mh.price)]
        else []
    | _, _ => [Issue.invalidPriceFormat llmName (getVal lh.price) (getVal mh.price)]
  else []

/-- `hallucination_manager.py` lines 124-154 (Heuristic 6): the rating
check for a matched (claim, fact) pair: both truthy → normalize and parse
both, `RatingContradiction` beyond the 0.1 tolerance, silent skip on
parse failure. -/
def ratingChecks (llmName : String) (lh mh : Hotel) : List Issue :=
  if pyTruthy (getVal lh.rating) && pyTruthy (getVal mh.rating) then
    match ratingParse (getVal lh.rating), ratingParse (getVal mh.rating) with
    | some x, some y =>
        if qGtB (qAbs (qSub x y)) ⟨1, 1⟩ then
          [Issue.ratingMismatch llmName (getVal lh.rating) (getVal mh.rating)]
        else []
    | _, _ => []
  else []

/-- The field checks run for one matched (claim, fact) pair. -/
def checkMatchedFields (llmName : String) (lh mh : Hotel) : List Issue :=
  priceChecks llmName lh mh ++ ratingChecks llmName lh mh

/-- `hallucination_manager.py` lines 64-154: processing of one claim:
strip the name (raises on non-string), flag blank names, exact lookup,
fuzzy fallback, `HallucinatedEntity` with up to three sample fact names
(whose join raises if one is missing or not a string), else field checks. -/
def checkClaim (apiList : List Hotel) (m : List (String × Hotel)) (lh : Hotel) :
    Except PyError (List Issue) := do
  let llmName ← pyStripVal (lh.name.getD (Value.vStr ""))
  if llmName = "" then
    Except.ok [Issue.missingName]
  else
    match mapGet m (strLower llmName) with
    | some mh => Except.ok (checkMatchedFields llmName lh mh)
    | Option.none =>
      match m.find? (fun p => nameSimilar (strLower llmName) p.fst) with
      | some p => Except.ok (checkMatchedFields llmName lh p.snd)
      | Option.none => do
          let avail ← pyJoinComma ((apiList.take 3).map (fun h => h.name.getD Value.vNone))
          Except.ok [Issue.hallucinatedHotel llmName avail]

/-- The claim loop of `verify_grounding` (lines 64-154), concatenating the
issues of each claim in order. -/
def perClaimAll (apiList : List Hotel) (m : List (String × Hotel)) :
    List Hotel → Except PyError (List Issue)
  | [] => Except.ok []
  | lh :: t => do
    let i ← checkClaim apiList m lh
    let r ← perClaimAll apiList m t
    Except.ok (i ++ r)

/-- `HallucinationManager.verify_grounding` (lines 17-156): empty-fact-set
short circuit, count validation, then the per-claim name and field checks. -/
def verify_grounding (api : ApiData) (llm : LlmClaims) : Except PyError (List Issue) :=
  let llmHs := llmHotels llm
  let apiHs := apiHotels api
  if apiHs = [] then
    Except.ok (if llmHs ≠ [] then [Issue.emptyApiHallucination] else [])
  else
    let countIssues :=
      if llmHs ≠ [] ∧ llmHs.length > apiHs.length then
        [Issue.countMismatch llmHs.length apiHs.length]
      else []
    if llmHs = [] then
      Except.ok countIssues
    else do
      let m ← buildApiMap [] apiHs
      let rest ← perClaimAll apiHs m llmHs
      Except.ok (countIssues ++ rest)

/-- `check_consistency` lines 237-238: the list comprehension
`[h.get("name", "").lower() for h in hotels if h.get("name")]`; the
`.lower()` raises on a truthy non-string name. -/
def consistencyNames : List Hotel → Except PyError (List String)
  | [] => Except.ok []
  | h :: t =>
    if pyTruthy (getVal h.name) then do
      let n ← pyLowerVal (h.name.getD (Value.vStr ""))
      let r ← consistencyNames t
      Except.ok (n :: r)
    else
      consistencyNames t

/-- `check_consistency` lines 246-250: index-tagged missing-name issues. -/
def missingNameIssues (i : Nat) : List Hotel → List Issue
  | [] => []
  | h :: t =>
    (if pyTruthy (getVal h.name) then [] else [Issue.missingNameAt i]) ++
      missingNameIssues (i + 1) t

/-- `check_consistency` lines 252-281: per-hotel logical checks — negative
price (parse failures silently pass) and rating outside [0, 5] after the
shared normalization. -/
def logicalIssues (h : Hotel) : List Issue :=
  let p := getVal h.price
  let priceIssues :=
    if p ≠ Value.vNone then
      match pyFloat p with
      | some x => if qLtB x (qOfNat 0) then [Issue.negativePrice (getVal h.name) p] else []
      | Option.none => []
    else []
  let r := getVal h.rating
  let ratingIssues :=
    if pyTruthy r then
      match ratingParse r with
      | some v =>
          if qLtB v (qOfNat 0) || qGtB v (qOfNat 5) then
            [Issue.invalidRatingRange (getVal h.name) r]
          else []
      | Option.none => []
    else []
  priceIssues ++ ratingIssues

/-- `HallucinationManager.check_consistency` (lines 220-283): duplicate
detection over case-folded truthy names, missing-name detection, then the
logical per-hotel checks. -/
def check_consistency (llm : LlmClaims) : Except PyError (List Issue) := do
  let hs := llmHotels llm
  let names ← consistencyNames hs
  let dups := names.filter (fun n => names.count n > 1)
  let dupIssues := if dups ≠ [] then [Issue.duplicateNames dups.dedup] else []
  Except.ok (dupIssues ++ missingNameIssues 0 hs ++ hs.flatMap logicalIssues)

/-- The variant of `logicalIssues` whose rating range test drops the
(unreachable) `rating_val < 0` disjunct, used to state claim C10. -/
def logicalIssuesPos (h : Hotel) : List Issue :=
  let p := getVal h.price
  let priceIssues :=
    if p ≠ Value.vNone then
      match pyFloat p with
      | some x => if qLtB x (qOfNat 0) then [Issue.negativePrice (getVal h.name) p] else []
      | Option.none => []
    else []
  let r := getVal h.rating
  let ratingIssues :=
    if pyTruthy r then
      match ratingParse r with
      | some v =>
          if qGtB v (qOfNat 5) then [Issue.invalidRatingRange (getVal h.name) r] else []
      | Option.none => []
    else []
  priceIssues ++ ratingIssues

/-- `check_consistency` with the `rating_val < 0` branch deleted. -/
def check_consistencyPos (llm : LlmClaims) : Except PyError (List Issue) := do
  let hs := llmHotels llm
  let names ← consistencyNames hs
  let dups := names.filter (fun n => names.count n > 1)
  let dupIssues := if dups ≠ [] then [Issue.duplicateNames dups.dedup] else []
  Except.ok (dupIssues ++ missingNameIssues 0 hs ++ hs.flatMap logicalIssuesPos)

/-- `check_plausibility` lines 307-315: the parseable prices across the
claim set (`price is not None` guard, `float` failures skipped). -/
def collectPrices (hs : List Hotel) : List Q :=
  hs.filterMap (fun h =>
    let p := getVal h.price
    if p ≠ Value.vNone then pyFloat p else Option.none)

/-- `check_plausibility` lines 317-324: the parseable normalized ratings
(truthiness guard, parse failures skipped). -/
def collectRatings (hs : List Hotel) : List Q :=
  hs.filterMap (fun h =>
    let r := getVal h.rating
    if pyTruthy r then ratingParse r else Option.none)

/-- `min` of a nonempty list (default never used by the caller). -/
def listMin : List Q → Q
  | [] => qOfNat 0
  | h :: t => t.foldl qMinB h

/-- `max` of a nonempty list. -/
def listMax : List Q → Q
  | [] => qOfNat 0
  | h :: t => t.foldl qMaxB h

/-- All elements value-equal to the first (Python `len(set(l)) == 1` on a
nonempty list, and `all(r == l[0] for r in l)`). -/
def allEqHead : List Q → Bool
  | [] => true
  | h :: t => t.all (fun x => qEqB x h)

/-- `HallucinationManager.check_plausibility` (lines 286-358): price range
heuristics and uniformity heuristics over the claim-side distributions;
total, no exceptions possible. -/
def check_plausibility (llm : LlmClaims) : List Issue :=
  let hs := llmHotels llm
  if hs = [] then []
  else
    let prices := collectPrices hs
    let ratings := collectRatings hs
    let priceIssues :=
      if prices ≠ [] then
        (if qLtB (listMin prices) (qOfNat 10) then [Issue.lowPrice (listMin prices)] else []) ++
        (if qGtB (listMax prices) (qOfNat 10000) then [Issue.highPrice (listMax prices)] else []) ++
        (if allEqHead prices ∧ prices.length > 2 then
          [Issue.uniformPrices (prices.headD (qOfNat 0))] else [])
      else []
    let ratingIssues :=
      if ratings ≠ [] then
        (if allEqHead ratings ∧ ratings.length > 2 then
          [Issue.uniformRatings (ratings.headD (qOfNat 0))] else [])
      else []
    priceIssues ++ ratingIssues

/-- The overconfidence lexicon of `detect_misinformation_patterns`. -/
def overconfidentPats : List String :=
  ["definitely", "certainly", "guaranteed", "always", "never fails"]

/-- The vague-superlative lexicon of `detect_misinformation_patterns`. -/
def vaguePats : List String :=
  ["the best hotel", "top rated", "most popular", "highly recommended"]

/-- Case-insensitive `re.search` of a literal lowercase pattern. -/
def strContainsCI (hay pat : String) : Bool := strContains (strLower hay) pat

/-- `re.findall(r"\$\d+", text)`: every dollar sign followed by a maximal
digit run, scanning left to right without overlap (fuel-driven). -/
def dollarTokensAux : Nat → List Char → List String
  | 0, _ => []
  | _ + 1, [] => []
  | n + 1, c :: rest =>
    if c = '$' then
      let ds := rest.takeWhile Char.isDigit
      if ds.isEmpty then dollarTokensAux n rest
      else String.mk ('$' :: ds) :: dollarTokensAux n (rest.drop ds.length)
    else
      dollarTokensAux n rest

/-- All `$<digits>` tokens of a text. -/
def dollarTokens (text : String) : List String :=
  dollarTokensAux text.data.length text.data

/-- `HallucinationManager.detect_misinformation_patterns` (lines 159-217):
active only when the fact side has no hotels; first matching
overconfidence pattern, first matching vague pattern, and unsupported
price tokens.  Total, no exceptions possible. -/
def detect_misinformation_patterns (text : String) (api : ApiData) : List Issue :=
  if apiHotels api ≠ [] then []
  else
    (match overconfidentPats.find? (fun p => strContainsCI text p) with
     | some p => [Issue.overconfident p]
     | Option.none => []) ++
    (match vaguePats.find? (fun p => strContainsCI text p) with
     | some p => [Issue.vagueClaim p]
     | Option.none => []) ++
    (let toks := dollarTokens text
     if toks ≠ [] then [Issue.unsupportedPrices toks] else [])

/-- The detection summary dict built at `hallucination_manager.py` lines
392-400. -/
structure Summary where
  total_issues : Nat
  grounding_issues : Nat
  consistency_issues : Nat
  plausibility_concerns : Nat
  misinformation_patterns : Nat
  has_critical_issues : Bool
  confidence : String
deriving DecidableEq, Repr

/-- `HallucinationManager.comprehensive_check` (lines 361-402): run the
four checkers, merge the issues in order, and build the summary
(`has_critical_issues` iff the grounding verifier reported anything,
`confidence` HIGH iff no issue at all). -/
def comprehensive_check (api : ApiData) (llm : LlmClaims) (text : String) :
    Except PyError (List Issue × Summary) := do
  let g ← verify_grounding api llm
  let c ← check_consistency llm
  let p := check_plausibility llm
  let m := if text ≠ "" then detect_misinformation_patterns text api else []
  let all := g ++ c ++ p ++ m
  Except.ok (all,
    { total_issues := all.length
      grounding_issues := g.length
      consistency_issues := c.length
      plausibility_concerns := p.length
      misinformation_patterns := m.length
      has_critical_issues := decide (g.length > 0)
      confidence := if all.length = 0 then "HIGH" else "LOW" })

/-- The parsed generator JSON envelope restricted to what the orchestrator
reads: `response_to_user` (default `""`) and `claims` (default `{}`). -/
structure FinalData where
  response_to_user : String := ""
  claims : LlmClaims := {}
deriving DecidableEq, Repr

/-- `data_fusion_validator.py` lines 42-43: the lowered name list
(`h.get("name", "").lower()`, raising on a truthy non-string name). -/
def fusionNamesLower : List Hotel → Except PyError (List String)
  | [] => Except.ok []
  | h :: t => do
    let n ← pyLowerVal (h.name.getD (Value.vStr ""))
    let r ← fusionNamesLower t
    Except.ok (n :: r)

/-- `data_fusion_validator.py` line 88: the dict comprehension
`{h.get("name", "").lower(): h for h in api_hotels if h.get("name")}`. -/
def fusionMap (acc : List (String × Hotel)) : List Hotel → Except PyError (List (String × Hotel))
  | [] => Except.ok acc
  | h :: t =>
    if pyTruthy (getVal h.name) then do
      let k ← pyLowerVal (h.name.getD (Value.vStr ""))
      fusionMap (upsert acc k h) t
    else
      fusionMap acc t

/-- `data_fusion_validator.py` lines 90-108 (Validation 3): accuracy
preservation of matched prices, threading the `(is_valid, issues)` state
through the loop. -/
def fusionAccuracy (m : List (String × Hotel)) :
    List Hotel → Bool × List Issue → Except PyError (Bool × List Issue)
  | [], st => Except.ok st
  | lh :: t, st => do
    let llmName ← pyLowerVal (lh.name.getD (Value.vStr ""))
    let st :=
      match mapGet m llmName with
      | some ah =>
        let lp := getVal lh.price
        let ap := getVal ah.price
        if lp ≠ Value.vNone ∧ ap ≠ Value.vNone then
          match pyFloat lp, pyFloat ap with
          | some x, some y =>
              if qGtB (qAbs (qSub x y)) (qOfNat 1) then
                (false, st.2 ++ [Issue.fusionPriceModified (getVal lh.name) lp ap])
              else st
          | _, _ => st
        else st
      | Option.none => st
    fusionAccuracy m t st

/-- Value-add indicator lexicon (`data_fusion_validator.py` lines 70-73). -/
def valueIndicators : List String :=
  ["recommend", "suggest", "compare", "better", "best", "value",
   "excellent", "great", "good", "option", "choice", "consider"]

/-- Factual indicator lexicon (`data_fusion_validator.py` line 116). -/
def factualIndicators : List String := ["$", "star", "rating", "night", "hotel"]

/-- Reasoning indicator lexicon (`data_fusion_validator.py` lines 120-123). -/
def reasoningIndicators : List String :=
  ["because", "since", "if", "recommend", "suggest", "consider",
   "better", "best", "value", "excellent", "great"]

/-- `DataFusionValidator.validate_fusion_quality` (lines 15-140): the four
validations in source order, threading `(is_valid, issues)`. -/
def validate_fusion_quality (api : ApiData) (resp : FinalData) :
    Except PyError (Bool × List Issue) := do
  let text := resp.response_to_user
  let apiHs := apiHotels api
  let llmHs := resp.claims.top_hotels.getD []
  let st1 : Bool × List Issue :=
    if apiHs ≠ [] ∧ llmHs = [] then (false, [Issue.fusionIgnoredApi]) else (true, [])
  let st2 ←
    if apiHs ≠ [] ∧ llmHs ≠ [] then do
      let apiNames ← fusionNamesLower apiHs
      let llmNames ← fusionNamesLower llmHs
      let apiSet := apiNames.dedup
      let llmSet := llmNames.dedup
      let stA :=
        if apiSet.all (fun n => !(llmSet.contains n)) then
          (false, st1.2 ++ [Issue.fusionNameMismatch])
        else st1
      if text ≠ "" then
        let mentions := apiSet.any (fun n => n ≠ "" && strContains (strLower text) n)
        let stB :=
          if ¬ mentions ∧ apiHs ≠ [] then (false, stA.2 ++ [Issue.fusionNoMention]) else stA
        let adds := valueIndicators.any (fun w => strContains (strLower text) w)
        let stC :=
          if ¬ adds ∧ apiHs.length > 1 then
            let s := (stB.1, stB.2 ++ [Issue.fusionNoValue])
            if s.1 then (s.1, s.2 ++ [Issue.fusionWarning]) else s
          else stB
        pure stC
      else
        pure stA
    else
      pure st1
  let st3 ←
    if apiHs ≠ [] ∧ llmHs ≠ [] then do
      let m ← fusionMap [] apiHs
      fusionAccuracy m llmHs st2
    else
      pure st2
  let st4 :=
    if apiHs ≠ [] ∧ text ≠ "" then
      let hasFacts := factualIndicators.any (fun w => strContains (strLower text) w)
      let sA := if ¬ hasFacts then (false, st3.2 ++ [Issue.fusionLacksFacts]) else st3
      let hasReason := reasoningIndicators.any (fun w => strContains (strLower text) w)
      if ¬ hasReason ∧ apiHs.length > 1 then
        (sA.1, sA.2 ++ [Issue.fusionLacksReasoning])
      else sA
    else st3
  Except.ok st4

/-- The four synthesis indicator categories of
`validate_meaningful_synthesis` (lines 157-162), in dict order. -/
def synthesisCategories : List (String × List String) :=
  [("comparison", ["compare", "versus", "vs", "better", "best", "difference"]),
   ("recommendation", ["recommend", "suggest", "consider", "prefer", "choose"]),
   ("context", ["because", "since", "for", "if you", "depending on"]),
   ("value_assessment", ["value", "worth", "excellent", "great", "good", "affordable"])]

/-- `DataFusionValidator.validate_meaningful_synthesis` (lines 143-174):
trivially meaningful with no fact data, else meaningful iff at least one
indicator category matches; also returns the matched categories. -/
def validate_meaningful_synthesis (api : ApiData) (resp : FinalData) : Bool × List String :=
  let text := resp.response_to_user
  let apiHs := apiHotels api
  if apiHs = [] then (true, [])
  else
    let found := synthesisCategories.filterMap (fun p =>
      if p.snd.any (fun w => strContains (strLower text) w) then some p.fst else Option.none)
    (decide (found.length ≥ 1), found)

/-- The score arithmetic of `get_fusion_quality_score` (lines 190-196):
start at 100, minus 30 if invalid, minus 20 if not meaningful, minus 5 per
recorded issue, floored at 0. -/
def scoreFormula (valid meaningful : Bool) (n : Nat) : Int :=
  max 0 (100 - (if valid then 0 else 30) - (if meaningful then 0 else 20) - 5 * (n : Int))

/-- The quality-metrics dict returned by `get_fusion_quality_score`. -/
structure FusionScore where
  score : Int
  is_valid : Bool
  is_meaningful : Bool
  issues : List Issue
  grade : String
deriving DecidableEq, Repr

/-- `DataFusionValidator.get_fusion_quality_score` (lines 176-205). -/
def get_fusion_quality_score (api : ApiData) (resp : FinalData) :
    Except PyError FusionScore := do
  let vi ← validate_fusion_quality api resp
  let ms := validate_meaningful_synthesis api resp
  let score := scoreFormula vi.1 ms.1 vi.2.length
  Except.ok
    { score
      is_valid := vi.1
      is_meaningful := ms.1
      issues := vi.2
      grade :=
        if score ≥ 90 then "Excellent"
        else if score ≥ 70 then "Good"
        else "Needs Improvement" }

/-- Observable outcome of one turn of the orchestrator tail: the returned
string, how many correction calls were made to the generator, and the
issue list of the re-validation of the corrected output (when it ran). -/
structure ChatResult where
  output : String
  correctionCalls : Nat
  recheckIssues : Option (List Issue)
deriving DecidableEq, Repr

/-- `LLMEngine.chat`, lines 284-373: the deterministic tail of a
tool-calling turn, starting from the second generation response.
`finalRaw` is `final_json_str` with `finalParsed` its JSON parse
(`Option.none` = `json.JSONDecodeError`); `corrRaw`/`corrParsed` stand for
the correction-call oracle, consumed only when the correction branch runs.
Runs the comprehensive check, the fusion validators and the fusion scorer,
extends the issue list with fusion issues when fusion is invalid, and on
critical issues performs the single correction round — re-validating the
corrected claims with the FULL `comprehensive_check` — returning the
corrected string regardless of residual issues; otherwise returns
`finalRaw` unmodified. -/
def chatTail (api : ApiData) (finalRaw : String) (finalParsed : Option FinalData)
    (corrRaw : String) (corrParsed : Option FinalData) : Except PyError ChatResult :=
  match finalParsed with
  | Option.none => Except.ok ⟨finalRaw, 0, Option.none⟩
  | some fd => do
    let cs ← comprehensive_check api fd.claims fd.response_to_user
    let fu ← validate_fusion_quality api fd
    let _ ← get_fusion_quality_score api fd
    let allIssues := if fu.1 then cs.1 else cs.1 ++ fu.2
    if allIssues ≠ [] then
      if cs.2.has_critical_issues then
        match corrParsed with
        | some cd => do
            let cc ← comprehensive_check api cd.claims cd.response_to_user
            Except.ok ⟨corrRaw, 1, some cc.1⟩
        | Option.none => Except.ok ⟨corrRaw, 1, Option.none⟩
      else
        Except.ok ⟨finalRaw, 0, Option.none⟩
    else
      Except.ok ⟨finalRaw, 0, Option.none⟩

deriving instance DecidableEq for Except

/-- Reduction of the `Except` bind on a success value. -/
theorem ok_bind {alpha beta : Type} (a : alpha) (f : alpha → Except PyError beta) :
    (Except.ok a >>= f) = f a := rfl

/-- Reduction of the `Except` bind on an exception. -/
theorem error_bind {alpha beta : Type} (e : PyError) (f : alpha → Except PyError beta) :
    (Except.error e >>= f) = Except.error e := rfl

/-- The result carries no exception. -/
def isOkB {α : Type} : Except PyError α → Bool
  | Except.ok _ => true
  | Except.error _ => false

/-! ## Claim C1 -/

/-- C1 (confirmed).  For every fact set and claim set where the fact-side
hotel list is empty and the claim-side hotel list is non-empty,
`verify_grounding` returns exactly the one empty-fact-set issue — whose
kind is `HallucinatedEntity` — and nothing else: the early return skips
every per-entity check. -/
theorem C1_empty_facts (api : ApiData) (llm : LlmClaims)
    (hF : apiHotels api = []) (hC : llmHotels llm ≠ []) :
    verify_grounding api llm = Except.ok [Issue.emptyApiHallucination] ∧
      Issue.kind Issue.emptyApiHallucination = Kind.hallucinatedEntity := by
  refine ⟨?_, rfl⟩
  unfold verify_grounding
  simp [hF, hC]

/-- Witness for C1 at the concrete scenario of §8 of the spec
(`facts = []`, `claims = [{name: "Anything"}]`). -/
theorem C1_empty_facts_witness :
    apiHotels {} = [] ∧
    llmHotels { hotels := some [{ name := some (Value.vStr "Anything") }] } ≠ [] ∧
    verify_grounding {} { hotels := some [{ name := some (Value.vStr "Anything") }] } =
      Except.ok [Issue.emptyApiHallucination] :=
  ⟨rfl, by decide,
    (C1_empty_facts {} { hotels := some [{ name := some (Value.vStr "Anything") }] }
      rfl (by decide)).1⟩

/-! ## Claim C10 -/

/-- A successfully parsed `[\d.]+` token has a non-negative numerator (it
is built from digits only; the regex cannot capture a minus sign). -/
theorem parseTok_num_nonneg (t : List Char) (x : Q) (h : parseTok t = some x) :
    0 ≤ x.num := by
  unfold parseTok at h
  split at h
  · split at h
    · injection h with h
      subst h
      simp
    · injection h with h
      subst h
      positivity
  · exact absurd h (by simp)

/-- Whatever the incoming value, the shared rating normalization can only
produce a non-negative number. -/
theorem ratingParse_nonneg (v : Value) (x : Q) (h : ratingParse v = some x) :
    0 ≤ x.num ∧ 0 ≤ x.toRat := by
  have hn : 0 ≤ x.num := by
    unfold ratingParse at h
    split at h
    · exact parseTok_num_nonneg _ _ h
    · exact absurd h (by simp)
  refine ⟨hn, ?_⟩
  unfold Q.toRat
  have hn2 : (0 : Rat) ≤ (x.num : Rat) := by exact_mod_cast hn
  positivity

/-- The per-hotel logical checks agree with the variant whose rating-range
test drops `rating_val < 0`. -/
theorem logicalIssues_eq_pos (h : Hotel) : logicalIssues h = logicalIssuesPos h := by
  unfold logicalIssues logicalIssuesPos
  rcases hv : ratingParse (getVal h.rating) with _ | v
  · simp only [hv]
  · have hnn := (ratingParse_nonneg _ _ hv).1
    have hlt : qLtB v (qOfNat 0) = false := by
      simp only [qLtB, qOfNat, pow_zero, mul_one, zero_mul, decide_eq_false_iff_not]
      omega
    simp only [hv, hlt, Bool.false_or]

/-- C10 (confirmed).  The Consistency Checker can never flag a negative
rating: `check_consistency` coincides with the variant whose
`rating_val < 0` branch is deleted, because the normalization extracts the
first unsigned `[\d.]+` token (a claim rating of `"-3"` reads as `3`), so
every parsed rating value is non-negative. -/
theorem C10_negative_rating_unreachable :
    (∀ llm : LlmClaims, check_consistency llm = check_consistencyPos llm) ∧
    (∀ v x, ratingParse v = some x → 0 ≤ x.num ∧ 0 ≤ x.toRat) := by
  constructor
  · intro llm
    unfold check_consistency check_consistencyPos
    have hflat : ∀ l : List Hotel, l.flatMap logicalIssues = l.flatMap logicalIssuesPos := by
      intro l
      induction l with
      | nil => rfl
      | cons a t ih => simp [List.flatMap_cons, ih, logicalIssues_eq_pos]
    simp only [hflat]
  · exact ratingParse_nonneg

/-- Witness for C10: the claim rating `"-3"` normalizes to `3` and the two
checker variants agree on a record carrying it. -/
theorem C10_negative_rating_unreachable_witness :
    check_consistency { top_hotels := some [{ rating := some (Value.vStr "-3") }] } =
      check_consistencyPos { top_hotels := some [{ rating := some (Value.vStr "-3") }] } ∧
    ratingParse (Value.vStr "-3") = some ⟨3, 0⟩ ∧
    0 ≤ (Q.mk 3 0).num ∧ 0 ≤ (Q.mk 3 0).toRat :=
  ⟨C10_negative_rating_unreachable.1 _, by decide,
    C10_negative_rating_unreachable.2 (Value.vStr "-3") ⟨3, 0⟩ (by decide)⟩

/-! ## Bridge lemmas: the cross-multiplication comparisons used by the
embedding agree with the rational-number comparisons of the spec. -/

/-- `qLtB` decides the rational strict order. -/
theorem qLtB_iff (a b : Q) : qLtB a b = true ↔ a.toRat < b.toRat := by
  unfold qLtB Q.toRat
  rw [decide_eq_true_eq, div_lt_div_iff₀ (by positivity) (by positivity)]
  constructor <;> intro h <;> exact_mod_cast h

/-- `qGtB` decides the reversed rational strict order. -/
theorem qGtB_iff (a b : Q) : qGtB a b = true ↔ b.toRat < a.toRat := qLtB_iff b a

/-- The exact difference realizes rational subtraction. -/
theorem qSub_toRat (x y : Q) : (qSub x y).toRat = x.toRat - y.toRat := by
  unfold qSub Q.toRat
  have h1 : ((10 : Rat) ^ x.exp) ≠ 0 := by positivity
  have h2 : ((10 : Rat) ^ y.exp) ≠ 0 := by positivity
  field_simp
  ring

/-- The numerator absolute value realizes the rational absolute value. -/
theorem qAbs_toRat (a : Q) : (qAbs a).toRat = |a.toRat| := by
  unfold qAbs Q.toRat
  rw [abs_div, abs_of_pos (a := ((10 : Rat) ^ a.exp)) (by positivity)]
  norm_cast

/-- The price-tolerance test of the source decides `|x - y| > 1`. -/
theorem priceTol_iff (x y : Q) :
    qGtB (qAbs (qSub x y)) (qOfNat 1) = true ↔ |x.toRat - y.toRat| > 1 := by
  rw [qGtB_iff, qAbs_toRat, qSub_toRat]
  have : (qOfNat 1).toRat = 1 := by
    unfold qOfNat Q.toRat
    norm_num
  rw [this]

/-- The rating-tolerance test of the source decides `|x - y| > 1/10`. -/
theorem ratingTol_iff (x y : Q) :
    qGtB (qAbs (qSub x y)) ⟨1, 1⟩ = true ↔ |x.toRat - y.toRat| > 1 / 10 := by
  rw [qGtB_iff, qAbs_toRat, qSub_toRat]
  have : (Q.mk 1 1).toRat = 1 / 10 := by
    unfold Q.toRat
    norm_num
  rw [this]

/-- Counting distributes over concatenation. -/
theorem countKind_append (a b : List Issue) (k : Kind) :
    countKind (a ++ b) k = countKind a k + countKind b k := by
  simp [countKind, List.filter_append]

/-- The rating check can only emit `RatingContradiction` issues. -/
theorem ratingChecks_count (nm : String) (lh mh : Hotel) (k : Kind)
    (hk : k ≠ Kind.ratingContradiction) : countKind (ratingChecks nm lh mh) k = 0 := by
  have hk2 : ¬ (Kind.ratingContradiction = k) := fun h => hk h.symm
  unfold ratingChecks countKind
  split
  · split
    · split
      · simp [Issue.kind, hk2]
      · rfl
    · rfl
  · rfl

/-- The price check can only emit `PriceContradiction` / `InvalidFormat`
issues. -/
theorem priceChecks_count (nm : String) (lh mh : Hotel) (k : Kind)
    (hk1 : k ≠ Kind.priceContradiction) (hk2 : k ≠ Kind.invalidFormat) :
    countKind (priceChecks nm lh mh) k = 0 := by
  have hb1 : ¬ (Kind.priceContradiction = k) := fun h => hk1 h.symm
  have hb2 : ¬ (Kind.invalidFormat = k) := fun h => hk2 h.symm
  unfold priceChecks countKind
  split
  · split
    · split
      · simp [Issue.kind, hb1]
      · rfl
    · simp [Issue.kind, hb2]
  · rfl

/-! ## Claim C4 -/

/-- C4 (confirmed).  For every matched (claim, fact) pair where both sides
provide a price: a parse failure on either side yields exactly one
`InvalidFormat` issue and no `PriceContradiction`; when both parse, a
`PriceContradiction` is emitted exactly when `|claimPrice - factPrice| >
1.0`, exactly once, with no `InvalidFormat`. -/
theorem C4_price_pair (nm : String) (lh mh : Hotel)
    (h1 : getVal lh.price ≠ Value.vNone) (h2 : getVal mh.price ≠ Value.vNone) :
    ((pyFloat (getVal lh.price) = Option.none ∨ pyFloat (getVal mh.price) = Option.none) →
      countKind (checkMatchedFields nm lh mh) Kind.invalidFormat = 1 ∧
      countKind (checkMatchedFields nm lh mh) Kind.priceContradiction = 0) ∧
    (∀ x y, pyFloat (getVal lh.price) = some x → pyFloat (getVal mh.price) = some y →
      countKind (checkMatchedFields nm lh mh) Kind.invalidFormat = 0 ∧
      countKind (checkMatchedFields nm lh mh) Kind.priceContradiction =
        (if |x.toRat - y.toRat| > 1 then 1 else 0)) := by
  have hrc : ∀ k, k ≠ Kind.ratingContradiction →
      countKind (checkMatchedFields nm lh mh) k = countKind (priceChecks nm lh mh) k := by
    intro k hk
    unfold checkMatchedFields
    rw [countKind_append, ratingChecks_count nm lh mh k hk]
    omega
  rw [hrc Kind.invalidFormat (by simp), hrc Kind.priceContradiction (by simp)]
  constructor
  · intro hfail
    unfold priceChecks
    rw [if_pos ⟨h1, h2⟩]
    rcases hx : pyFloat (getVal lh.price) with _ | x <;>
      rcases hy : pyFloat (getVal mh.price) with _ | y <;>
      simp_all [countKind, Issue.kind]
  · intro x y hx hy
    unfold priceChecks
    rw [if_pos ⟨h1, h2⟩]
    simp only [hx, hy]
    by_cases hq : qGtB (qAbs (qSub x y)) (qOfNat 1) = true
    · rw [if_pos hq, if_pos ((priceTol_iff x y).mp hq)]
      simp [countKind, Issue.kind]
    · rw [if_neg hq, if_neg (fun hr => hq ((priceTol_iff x y).mpr hr))]
      simp [countKind]

/-- Witness for C4: a matched pair with a non-numeric claim price yields
exactly one `InvalidFormat` issue. -/
theorem C4_price_pair_witness :
    getVal (some (Value.vStr "abc")) ≠ Value.vNone ∧
    getVal (some (Value.vNum ⟨150, 0⟩)) ≠ Value.vNone ∧
    pyFloat (getVal (some (Value.vStr "abc"))) = Option.none ∧
    (countKind (checkMatchedFields "x" { price := some (Value.vStr "abc") }
        { price := some (Value.vNum ⟨150, 0⟩) }) Kind.invalidFormat = 1 ∧
     countKind (checkMatchedFields "x" { price := some (Value.vStr "abc") }
        { price := some (Value.vNum ⟨150, 0⟩) }) Kind.priceContradiction = 0) :=
  ⟨by decide, by decide, by decide,
    (C4_price_pair "x" { price := some (Value.vStr "abc") }
        { price := some (Value.vNum ⟨150, 0⟩) } (by decide) (by decide)).1
      (Or.inl (by decide))⟩

/-! ## Claim C5 -/

/-- C5 counterexample.  The claim states that whenever both sides PROVIDE
a rating value, a `RatingContradiction` is emitted iff both parse and
differ by more than 0.1.  A provided rating of numeric `0` falsifies it:
the source guards the rating check with Python truthiness
(`if llm_rating and api_rating`), so the pair (claim rating `0`, fact
rating `5`) — both provided, both parsing, differing by `5 > 0.1` —
produces no issue at all. -/
theorem C5_rating_pair_counterexample :
    (Hotel.rating { rating := some (Value.vNum ⟨0, 0⟩) } ≠ Option.none) ∧
    (Hotel.rating { name := some (Value.vStr "abcdef"), rating := some (Value.vNum ⟨5, 0⟩) }
      ≠ Option.none) ∧
    ratingParse (Value.vNum ⟨0, 0⟩) = some ⟨0, 1⟩ ∧
    ratingParse (Value.vNum ⟨5, 0⟩) = some ⟨50, 1⟩ ∧
    |(Q.mk 0 1).toRat - (Q.mk 50 1).toRat| > 1 / 10 ∧
    checkMatchedFields "abcdef" { rating := some (Value.vNum ⟨0, 0⟩) }
      { name := some (Value.vStr "abcdef"), rating := some (Value.vNum ⟨5, 0⟩) } = [] :=
  ⟨by decide, by decide, by decide, by decide, by norm_num [Q.toRat], by decide⟩

/-- C5 (corrected).  Amended claim: for every matched (claim, fact) pair
where both sides provide a TRUTHY rating value (a rating of numeric `0`
or an empty string counts as absent, by Python truthiness), the ratings
are compared after stripping the `star`/`stars` unit words and extracting
the first `[\d.]+` token — `"4.5 stars"` and `4.5` normalize identically —
and a `RatingContradiction` is emitted iff both normalized ratings parse
and differ by more than 0.1 (exactly once when they do); a parse failure
on either side is silently skipped, and a falsy (in particular absent)
rating on either side never yields an issue. -/
theorem C5_rating_pair :
    (∀ nm lh mh, pyTruthy (getVal lh.rating) = true → pyTruthy (getVal mh.rating) = true →
      (∀ x y, ratingParse (getVal lh.rating) = some x →
        ratingParse (getVal mh.rating) = some y →
        countKind (checkMatchedFields nm lh mh) Kind.ratingContradiction =
          (if |x.toRat - y.toRat| > 1 / 10 then 1 else 0)) ∧
      ((ratingParse (getVal lh.rating) = Option.none ∨
          ratingParse (getVal mh.rating) = Option.none) →
        countKind (checkMatchedFields nm lh mh) Kind.ratingContradiction = 0)) ∧
    (∀ nm lh mh, pyTruthy (getVal lh.rating) = false ∨ pyTruthy (getVal mh.rating) = false →
      countKind (checkMatchedFields nm lh mh) Kind.ratingContradiction = 0) ∧
    ratingParse (Value.vStr "4.5 stars") = ratingParse (Value.vNum ⟨45, 1⟩) := by
  have hpc : ∀ nm lh mh,
      countKind (checkMatchedFields nm lh mh) Kind.ratingContradiction =
        countKind (ratingChecks nm lh mh) Kind.ratingContradiction := by
    intro nm lh mh
    unfold checkMatchedFields
    rw [countKind_append, priceChecks_count nm lh mh _ (by simp) (by simp)]
    omega
  refine ⟨?_, ?_, by decide⟩
  · intro nm lh mh hl hh
    constructor
    · intro x y hx hy
      rw [hpc]
      unfold ratingChecks
      rw [hl, hh]
      simp only [Bool.and_self, if_true, hx, hy]
      by_cases hq : qGtB (qAbs (qSub x y)) ⟨1, 1⟩ = true
      · rw [if_pos hq, if_pos ((ratingTol_iff x y).mp hq)]
        simp [countKind, Issue.kind]
      · rw [if_neg hq, if_neg (fun hr => hq ((ratingTol_iff x y).mpr hr))]
        simp [countKind]
    · intro hfail
      rw [hpc]
      unfold ratingChecks
      rw [hl, hh]
      rcases hx : ratingParse (getVal lh.rating) with _ | x <;>
        rcases hy : ratingParse (getVal mh.rating) with _ | y <;>
        simp_all [countKind]
  · intro nm lh mh hfalse
    rw [hpc]
    unfold ratingChecks
    rcases hfalse with hf | hf <;> simp [hf, countKind]

/-- Witness for C5: the pair (`"4.5 stars"`, `4.5`) normalizes to equal
values and yields no issue. -/
theorem C5_rating_pair_witness :
    pyTruthy (getVal (some (Value.vStr "4.5 stars"))) = true ∧
    pyTruthy (getVal (some (Value.vNum ⟨45, 1⟩))) = true ∧
    ratingParse (Value.vStr "4.5 stars") = some ⟨45, 1⟩ ∧
    ratingParse (Value.vNum ⟨45, 1⟩) = some ⟨45, 1⟩ ∧
    countKind (checkMatchedFields "x" { rating := some (Value.vStr "4.5 stars") }
        { rating := some (Value.vNum ⟨45, 1⟩) }) Kind.ratingContradiction =
      (if |(Q.mk 45 1).toRat - (Q.mk 45 1).toRat| > 1 / 10 then 1 else 0) :=
  ⟨by decide, by decide, by decide, by decide,
    ((C5_rating_pair.1 "x" { rating := some (Value.vStr "4.5 stars") }
        { rating := some (Value.vNum ⟨45, 1⟩) } (by decide) (by decide)).1
      ⟨45, 1⟩ ⟨45, 1⟩ (by decide) (by decide))⟩

/-! ## Claim C6 -/

/-- C6 counterexample.  The claim states the fuzzy match succeeds iff one
name is a substring of the other AND the SHORTER string has length > 5,
and that the predicate is symmetric.  Both parts fail: for claim name
`"grand hotel"` and fact name `"grand"`, the shorter string has length 5
(not > 5) yet the source condition matches, because its guard
`len(name_key) > 5` tests the CLAIM name; swapping the arguments flips
the result, so the predicate is not symmetric either. -/
theorem C6_fuzzy_counterexample :
    strContains "grand hotel" "grand" = true ∧
    min ("grand hotel".length) ("grand".length) = 5 ∧
    nameSimilar "grand hotel" "grand" = true ∧
    nameSimilar "grand" "grand hotel" = false := by decide

/-- C6 (corrected).  Amended claim: for a claim name and fact name with no
exact case-folded match, the fuzzy match succeeds iff one normalized name
is a substring of the other AND the CLAIM-side name has length > 5; the
predicate is deterministic but not symmetric in its arguments.  Stated
against `verify_grounding` on singleton fact/claim sets: the claim is
flagged `HallucinatedEntity` exactly when `nameSimilar` (the literal
source condition, whose guard is on the claim name) rejects the pair. -/
theorem C6_fuzzy_match (cn fn : String)
    (hcn : strTrim cn ≠ "") (hfn : strTrim (strLower fn) ≠ "")
    (hne : strLower (strTrim cn) ≠ strTrim (strLower fn)) :
    verify_grounding { top_hotels := some [{ name := some (Value.vStr fn) }] }
        { top_hotels := some [{ name := some (Value.vStr cn) }] } =
      Except.ok (if nameSimilar (strLower (strTrim cn)) (strTrim (strLower fn)) then []
        else [Issue.hallucinatedHotel (strTrim cn) fn]) := by
  have hne2 : strTrim (strLower fn) ≠ strLower (strTrim cn) := Ne.symm hne
  by_cases hs : nameSimilar (strLower (strTrim cn)) (strTrim (strLower fn)) = true
  · rw [if_pos hs]
    simp [verify_grounding, apiHotels, llmHotels, buildApiMap, pyLowerStrip, hfn, upsert,
      perClaimAll, checkClaim, pyStripVal, hcn, mapGet, List.find?, hne2, hs, ok_bind,
      checkMatchedFields, priceChecks, ratingChecks, getVal, pyTruthy]
  · rw [if_neg hs]
    rw [Bool.not_eq_true] at hs
    simp [verify_grounding, apiHotels, llmHotels, buildApiMap, pyLowerStrip, hfn, upsert,
      perClaimAll, checkClaim, pyStripVal, hcn, mapGet, List.find?, hne2, hs, ok_bind,
      pyJoinComma]

/-- Witness for C6: claim `"Grand Hotel"` against fact `"Grand"` (no exact
match) — the source fuzzy-matches, because its guard is on the claim name. -/
theorem C6_fuzzy_match_witness :
    strTrim "Grand Hotel" ≠ "" ∧
    strTrim (strLower "Grand") ≠ "" ∧
    strLower (strTrim "Grand Hotel") ≠ strTrim (strLower "Grand") ∧
    verify_grounding { top_hotels := some [{ name := some (Value.vStr "Grand") }] }
        { top_hotels := some [{ name := some (Value.vStr "Grand Hotel") }] } =
      Except.ok (if nameSimilar (strLower (strTrim "Grand Hotel"))
          (strTrim (strLower "Grand")) then []
        else [Issue.hallucinatedHotel (strTrim "Grand Hotel") "Grand"]) :=
  ⟨by decide, by decide, by decide,
    C6_fuzzy_match "Grand Hotel" "Grand" (by decide) (by decide) (by decide)⟩

/-! ## Claim C7 -/

/-- C7 (confirmed).  Whenever `get_fusion_quality_score` returns, the
score is exactly `100`, minus 30 if not valid, minus 20 if not
meaningful, minus 5 per recorded issue, floored at 0; hence it always
lies in `[0, 100]` and is monotonically non-increasing in issue count;
and the grade is `Excellent` iff score ≥ 90, `Good` iff 70 ≤ score < 90,
else `Needs Improvement`. -/
theorem C7_fusion_score (api : ApiData) (resp : FinalData) (fs : FusionScore)
    (h : get_fusion_quality_score api resp = Except.ok fs) :
    fs.score = scoreFormula fs.is_valid fs.is_meaningful fs.issues.length ∧
    0 ≤ fs.score ∧ fs.score ≤ 100 ∧
    (∀ v m n, scoreFormula v m (n + 1) ≤ scoreFormula v m n) ∧
    (fs.grade = "Excellent" ↔ 90 ≤ fs.score) ∧
    (fs.grade = "Good" ↔ 70 ≤ fs.score ∧ fs.score < 90) ∧
    (fs.grade = "Needs Improvement" ↔ fs.score < 70) := by
  have hmono : ∀ (v m : Bool) (n : Nat), scoreFormula v m (n + 1) ≤ scoreFormula v m n := by
    intro v m n
    unfold scoreFormula
    apply max_le_max le_rfl
    push_cast
    split <;> split <;> omega
  have hub : ∀ (v m : Bool) (n : Nat), scoreFormula v m n ≤ 100 := by
    intro v m n
    unfold scoreFormula
    apply max_le (by norm_num)
    have : (0 : Int) ≤ 5 * (n : Int) := by positivity
    split <;> split <;> omega
  have hlb : ∀ (v m : Bool) (n : Nat), 0 ≤ scoreFormula v m n := by
    intro v m n
    exact le_max_left 0 _
  have hgrade : ∀ s : Int,
      (((if s ≥ 90 then "Excellent" else if s ≥ 70 then "Good"
          else "Needs Improvement") : String) = "Excellent" ↔ 90 ≤ s) ∧
      (((if s ≥ 90 then "Excellent" else if s ≥ 70 then "Good"
          else "Needs Improvement") : String) = "Good" ↔ 70 ≤ s ∧ s < 90) ∧
      (((if s ≥ 90 then "Excellent" else if s ≥ 70 then "Good"
          else "Needs Improvement") : String) = "Needs Improvement" ↔ s < 70) := by
    intro s
    by_cases h90 : (90 : Int) ≤ s
    · simp only [ge_iff_le, if_pos h90]
      exact ⟨iff_of_true trivial h90, iff_of_false (by decide) (by omega),
        iff_of_false (by decide) (by omega)⟩
    · by_cases h70 : (70 : Int) ≤ s
      · simp only [ge_iff_le, if_neg h90, if_pos h70]
        exact ⟨iff_of_false (by decide) h90, iff_of_true trivial ⟨h70, by omega⟩,
          iff_of_false (by decide) (by omega)⟩
      · simp only [ge_iff_le, if_neg h90, if_neg h70]
        exact ⟨iff_of_false (by decide) h90, iff_of_false (by decide) (by omega),
          iff_of_true trivial (by omega)⟩
  unfold get_fusion_quality_score at h
  rcases hv : validate_fusion_quality api resp with e | vi <;> rw [hv] at h
  · rw [error_bind] at h
    exact absurd h (by simp)
  · rw [ok_bind] at h
    injection h with h
    subst h
    exact ⟨rfl, hlb _ _ _, hub _ _ _, hmono, (hgrade _).1, (hgrade _).2.1, (hgrade _).2.2⟩

/-- Witness for C7 at the empty turn: score 100, grade Excellent. -/
theorem C7_fusion_score_witness :
    get_fusion_quality_score {} {} =
      Except.ok ⟨100, true, true, [], "Excellent"⟩ ∧
    ((FusionScore.mk 100 true true [] "Excellent").score =
        scoreFormula true true (0 : Nat) ∧
      0 ≤ (FusionScore.mk 100 true true [] "Excellent").score ∧
      (FusionScore.mk 100 true true [] "Excellent").score ≤ 100 ∧
      ((FusionScore.mk 100 true true [] "Excellent").grade = "Excellent" ↔
        90 ≤ (FusionScore.mk 100 true true [] "Excellent").score)) := by
  have h := C7_fusion_score {} {} ⟨100, true, true, [], "Excellent"⟩ (by decide)
  exact ⟨by decide, h.1, h.2.1, h.2.2.1, h.2.2.2.2.1⟩

/-! ## Claim C8 -/

/-- C8 (confirmed).  On a turn whose merged checks report no critical
issue, the orchestrator tail returns the first generation output
byte-for-byte (`finalRaw`) with zero correction calls and no
re-validation, regardless of how many non-critical issues (including
fusion issues) were logged. -/
theorem C8_clean_turn (api : ApiData) (finalRaw : String) (fd : FinalData)
    (corrRaw : String) (corrParsed : Option FinalData)
    (issues : List Issue) (sm : Summary) (r : ChatResult)
    (hc : comprehensive_check api fd.claims fd.response_to_user = Except.ok (issues, sm))
    (hcrit : sm.has_critical_issues = false)
    (hr : chatTail api finalRaw (some fd) corrRaw corrParsed = Except.ok r) :
    r.output = finalRaw ∧ r.correctionCalls = 0 ∧ r.recheckIssues = Option.none := by
  simp only [chatTail] at hr
  rw [hc, ok_bind] at hr
  rcases hv : validate_fusion_quality api fd with e | fu <;> rw [hv] at hr
  · rw [error_bind] at hr
    exact absurd hr (by simp)
  · rw [ok_bind] at hr
    rcases hg : get_fusion_quality_score api fd with e | gs <;> rw [hg] at hr
    · rw [error_bind] at hr
      exact absurd hr (by simp)
    · rw [ok_bind] at hr
      simp only [hcrit, Bool.false_eq_true, if_false] at hr
      split at hr <;> split at hr <;>
        (injection hr with hr; subst hr; exact ⟨rfl, rfl, rfl⟩)

/-- Witness for C8 at a clean empty turn. -/
theorem C8_clean_turn_witness :
    comprehensive_check {} ({} : FinalData).claims ({} : FinalData).response_to_user =
      Except.ok ([], ⟨0, 0, 0, 0, 0, false, "HIGH"⟩) ∧
    (Summary.mk 0 0 0 0 0 false "HIGH").has_critical_issues = false ∧
    chatTail {} "FINAL" (some {}) "CORR" Option.none =
      Except.ok ⟨"FINAL", 0, Option.none⟩ ∧
    ((ChatResult.mk "FINAL" 0 Option.none).output = "FINAL" ∧
      (ChatResult.mk "FINAL" 0 Option.none).correctionCalls = 0 ∧
      (ChatResult.mk "FINAL" 0 Option.none).recheckIssues = Option.none) :=
  ⟨by decide, rfl, by decide,
    C8_clean_turn {} "FINAL" {} "CORR" Option.none [] ⟨0, 0, 0, 0, 0, false, "HIGH"⟩
      ⟨"FINAL", 0, Option.none⟩ (by decide) rfl (by decide)⟩

/-! ## Claim C2 -/

/-- A successful comprehensive check with the critical flag set has a
non-empty merged issue list (the grounding issues are a prefix of it). -/
theorem comprehensive_critical_nonempty (api : ApiData) (llm : LlmClaims) (text : String)
    (issues : List Issue) (sm : Summary)
    (h : comprehensive_check api llm text = Except.ok (issues, sm))
    (hcrit : sm.has_critical_issues = true) : issues ≠ [] := by
  unfold comprehensive_check at h
  rcases hg : verify_grounding api llm with e | g <;> rw [hg] at h
  · rw [error_bind] at h
    exact absurd h (by simp)
  · rw [ok_bind] at h
    rcases hcs : check_consistency llm with e | c <;> rw [hcs] at h
    · rw [error_bind] at h
      exact absurd h (by simp)
    · rw [ok_bind] at h
      injection h with h
      injection h with h1 h2
      subst h1
      subst h2
      simp only [Summary.has_critical_issues] at hcrit
      have hg0 : g.length > 0 := of_decide_eq_true hcrit
      intro hemp
      have := List.append_eq_nil.mp hemp
      have := List.append_eq_nil.mp this.1
      have := List.append_eq_nil.mp this.1
      rw [this.1] at hg0
      exact absurd hg0 (by simp)

/-- C2 counterexample.  The claim states the orchestrator re-runs ONLY the
Grounding Verifier against the regenerated output.  On this concrete turn
the corrected claims contain a duplicated (but correctly grounded) hotel,
and the recorded re-validation issue list is the full
`comprehensive_check` output — a `DuplicateEntity` consistency issue —
while the Grounding Verifier alone returns no issue at all. -/
theorem C2_correction_counterexample :
    chatTail { top_hotels := some [{ name := some (Value.vStr "abcdef hotel") },
                                   { name := some (Value.vStr "qwerty hotel") }] }
      "FINAL"
      (some { claims := { top_hotels := some [{ name := some (Value.vStr "zzz fake hotel") }] } })
      "CORR"
      (some { claims := { top_hotels := some [{ name := some (Value.vStr "abcdef hotel") },
                                              { name := some (Value.vStr "abcdef hotel") }] } }) =
      Except.ok ⟨"CORR", 1, some [Issue.duplicateNames ["abcdef hotel"]]⟩ ∧
    verify_grounding { top_hotels := some [{ name := some (Value.vStr "abcdef hotel") },
                                           { name := some (Value.vStr "qwerty hotel") }] }
      { top_hotels := some [{ name := some (Value.vStr "abcdef hotel") },
                            { name := some (Value.vStr "abcdef hotel") }] } =
      Except.ok [] ∧
    some [Issue.duplicateNames ["abcdef hotel"]] ≠ some ([] : List Issue) := by
  refine ⟨by decide, by decide, by decide⟩

/-- C2 (corrected).  Amended claim: when the merged checks of a parsed
turn report critical issues, the orchestrator invokes the generator
exactly once more and returns the regenerated output whether or not
residual issues remain; the re-validation of the regenerated output runs
the FULL check suite (`comprehensive_check`), not only the Grounding
Verifier. -/
theorem C2_correction (api : ApiData) (finalRaw : String) (fd : FinalData)
    (corrRaw : String) (cd : FinalData)
    (issues ci : List Issue) (sm sm2 : Summary) (r : ChatResult)
    (hc : comprehensive_check api fd.claims fd.response_to_user = Except.ok (issues, sm))
    (hcrit : sm.has_critical_issues = true)
    (hc2 : comprehensive_check api cd.claims cd.response_to_user = Except.ok (ci, sm2))
    (hr : chatTail api finalRaw (some fd) corrRaw (some cd) = Except.ok r) :
    r.output = corrRaw ∧ r.correctionCalls = 1 ∧ r.recheckIssues = some ci := by
  have hissues := comprehensive_critical_nonempty api fd.claims fd.response_to_user
    issues sm hc hcrit
  simp only [chatTail] at hr
  rw [hc, ok_bind] at hr
  rcases hv : validate_fusion_quality api fd with e | fu <;> rw [hv] at hr
  · rw [error_bind] at hr
    exact absurd hr (by simp)
  · rw [ok_bind] at hr
    rcases hg : get_fusion_quality_score api fd with e | gs <;> rw [hg] at hr
    · rw [error_bind] at hr
      exact absurd hr (by simp)
    · rw [ok_bind] at hr
      have hne : (if fu.1 then (issues, sm).1 else (issues, sm).1 ++ fu.2) ≠ [] := by
        split
        · exact hissues
        · exact fun hh => hissues (List.append_eq_nil.mp hh).1
      rw [if_pos hne] at hr
      simp only [hcrit, if_true] at hr
      rw [hc2, ok_bind] at hr
      injection hr with hr
      subst hr
      exact ⟨rfl, rfl, rfl⟩

/-- Witness for C2 at the concrete correction turn of the counterexample. -/
theorem C2_correction_witness :
    chatTail { top_hotels := some [{ name := some (Value.vStr "abcdef hotel") },
                                   { name := some (Value.vStr "qwerty hotel") }] }
      "FINAL"
      (some { claims := { top_hotels := some [{ name := some (Value.vStr "zzz fake hotel") }] } })
      "CORR"
      (some { claims := { top_hotels := some [{ name := some (Value.vStr "abcdef hotel") },
                                              { name := some (Value.vStr "abcdef hotel") }] } }) =
      Except.ok ⟨"CORR", 1, some [Issue.duplicateNames ["abcdef hotel"]]⟩ ∧
    ((ChatResult.mk "CORR" 1 (some [Issue.duplicateNames ["abcdef hotel"]])).output = "CORR" ∧
      (ChatResult.mk "CORR" 1 (some [Issue.duplicateNames ["abcdef hotel"]])).correctionCalls = 1 ∧
      (ChatResult.mk "CORR" 1 (some [Issue.duplicateNames ["abcdef hotel"]])).recheckIssues =
        some [Issue.duplicateNames ["abcdef hotel"]]) :=
  ⟨by decide,
    C2_correction
      { top_hotels := some [{ name := some (Value.vStr "abcdef hotel") },
                            { name := some (Value.vStr "qwerty hotel") }] }
      "FINAL"
      { claims := { top_hotels := some [{ name := some (Value.vStr "zzz fake hotel") }] } }
      "CORR"
      { claims := { top_hotels := some [{ name := some (Value.vStr "abcdef hotel") },
                                        { name := some (Value.vStr "abcdef hotel") }] } }
      [Issue.hallucinatedHotel "zzz fake hotel" "abcdef hotel, qwerty hotel"]
      [Issue.duplicateNames ["abcdef hotel"]]
      ⟨1, 1, 0, 0, 0, true, "LOW"⟩ ⟨1, 0, 1, 0, 0, false, "LOW"⟩
      ⟨"CORR", 1, some [Issue.duplicateNames ["abcdef hotel"]]⟩
      (by decide) rfl (by decide) (by decide)⟩

/-! ## Claim C9 -/

/-- The name field holds a string (present). -/
def isStrName : Option Value → Bool
  | some (Value.vStr _) => true
  | _ => false

/-- The name field holds a string or is absent. -/
def isStrOrAbsentName : Option Value → Bool
  | Option.none => true
  | some (Value.vStr _) => true
  | _ => false

/-- C9 counterexample.  The claim states `verify_grounding` never raises
on any input and that non-string name values in a record degrade to the
check being skipped.  On a claim record whose `name` is the number `42`
(with a non-empty fact side), the un-guarded `llm_name.strip()` call
raises `AttributeError`. -/
theorem C9_no_raise_counterexample :
    verify_grounding { top_hotels := some [{ name := some (Value.vStr "abcdef") }] }
        { top_hotels := some [{ name := some (Value.vNum ⟨42, 0⟩) }] } =
      Except.error PyError.attributeError ∧
    isOkB (verify_grounding { top_hotels := some [{ name := some (Value.vStr "abcdef") }] }
        { top_hotels := some [{ name := some (Value.vNum ⟨42, 0⟩) }] }) = false := by
  refine ⟨by decide, by decide⟩

/-- `", ".join` succeeds when every element is a string. -/
theorem pyJoinComma_ok (vs : List Value) (h : ∀ v ∈ vs, ∃ s, v = Value.vStr s) :
    ∃ r, pyJoinComma vs = Except.ok r := by
  induction vs with
  | nil => exact ⟨"", rfl⟩
  | cons v t ih =>
    obtain ⟨s, rfl⟩ := h v (by simp)
    obtain ⟨r, hr⟩ := ih (fun w hw => h w (by simp [hw]))
    cases t with
    | nil => exact ⟨s, rfl⟩
    | cons w u => exact ⟨s ++ ", " ++ r, by simp [pyJoinComma, hr, ok_bind]⟩

/-- Building the fact-side index succeeds when every fact name is a
(present) string. -/
theorem buildApiMap_ok :
    ∀ l : List Hotel, (∀ x ∈ l, isStrName x.name = true) →
      ∀ acc, ∃ m, buildApiMap acc l = Except.ok m := by
  intro l
  induction l with
  | nil => exact fun _ acc => ⟨acc, rfl⟩
  | cons a t ih =>
    intro h acc
    have ha := h a (by simp)
    rcases hn : a.name with _ | v
    · rw [hn] at ha
      exact absurd ha (by simp [isStrName])
    · rcases v with _ | s | q
      · rw [hn] at ha
        exact absurd ha (by simp [isStrName])
      · obtain ⟨m, hm⟩ := ih (fun x hx => h x (by simp [hx]))
          (if strTrim (strLower s) = "" then acc else upsert acc (strTrim (strLower s)) a)
        exact ⟨m, by simp [buildApiMap, hn, pyLowerStrip, ok_bind, hm]⟩
      · rw [hn] at ha
        exact absurd ha (by simp [isStrName])

/-- Processing one claim succeeds when its name is a string or absent and
every fact name is a string. -/
theorem checkClaim_ok (apiL : List Hotel) (m : List (String × Hotel)) (lh : Hotel)
    (hA : ∀ x ∈ apiL, isStrName x.name = true)
    (hL : isStrOrAbsentName lh.name = true) :
    isOkB (checkClaim apiL m lh) = true := by
  have hstrip : ∃ nm, pyStripVal (lh.name.getD (Value.vStr "")) = Except.ok nm := by
    rcases hn : lh.name with _ | v
    · exact ⟨strTrim "", rfl⟩
    · rcases v with _ | s | q
      · rw [hn] at hL
        exact absurd hL (by simp [isStrOrAbsentName])
      · exact ⟨strTrim s, by simp [hn, pyStripVal]⟩
      · rw [hn] at hL
        exact absurd hL (by simp [isStrOrAbsentName])
  obtain ⟨nm, hnm⟩ := hstrip
  unfold checkClaim
  rw [hnm, ok_bind]
  by_cases he : nm = ""
  · rw [if_pos he]
    rfl
  · rw [if_neg he]
    have hjoin : ∀ v ∈ (apiL.take 3).map (fun h => h.name.getD Value.vNone),
        ∃ s, v = Value.vStr s := by
      intro v hv
      rw [List.mem_map] at hv
      obtain ⟨x, hx, rfl⟩ := hv
      have hs := hA x (List.take_subset _ _ hx)
      rcases hn : x.name with _ | w
      · rw [hn] at hs
        exact absurd hs (by simp [isStrName])
      · rcases w with _ | s | q
        · rw [hn] at hs
          exact absurd hs (by simp [isStrName])
        · exact ⟨s, by simp [hn]⟩
        · rw [hn] at hs
          exact absurd hs (by simp [isStrName])
    obtain ⟨r0, hr0⟩ :=
      pyJoinComma_ok ((apiL.take 3).map (fun h => h.name.getD Value.vNone)) hjoin
    generalize mapGet m (strLower nm) = o
    cases o with
    | some mh => rfl
    | none =>
      generalize m.find? (fun p => nameSimilar (strLower nm) p.fst) = o2
      cases o2 with
      | some p => rfl
      | none =>
        rw [hr0, ok_bind]
        rfl

/-- The claim loop succeeds when every claim name is a string or absent
and every fact name is a string. -/
theorem perClaimAll_ok (apiL : List Hotel) (m : List (String × Hotel))
    (hA : ∀ x ∈ apiL, isStrName x.name = true) :
    ∀ l : List Hotel, (∀ x ∈ l, isStrOrAbsentName x.name = true) →
      isOkB (perClaimAll apiL m l) = true := by
  intro l
  induction l with
  | nil => exact fun _ => rfl
  | cons a t ih =>
    intro h
    have hc := checkClaim_ok apiL m a hA (h a (by simp))
    rcases hcc : checkClaim apiL m a with e | is
    · rw [hcc] at hc
      exact absurd hc (by simp [isOkB])
    · have ht := ih (fun x hx => h x (by simp [hx]))
      rcases hp : perClaimAll apiL m t with e | r
      · rw [hp] at ht
        exact absurd ht (by simp [isOkB])
      · unfold perClaimAll
        rw [hcc, ok_bind, hp, ok_bind]
        rfl

/-- C9 (corrected).  Amended claim: `verify_grounding` is a pure function
that never raises PROVIDED every fact record carries a string name and
every claim record name, when present, is a string; under those
hypotheses malformed price and rating values (non-numeric prices,
unparseable ratings) degrade to the affected check being skipped or to an
issue being emitted.  Without them it can raise: a non-string name value
hits the un-guarded `.strip()` / `.lower()` calls, and a missing fact
name can poison the `", ".join` of sample names. -/
theorem C9_no_raise (api : ApiData) (llm : LlmClaims)
    (hA : (apiHotels api).all (fun x => isStrName x.name) = true)
    (hL : (llmHotels llm).all (fun x => isStrOrAbsentName x.name) = true) :
    isOkB (verify_grounding api llm) = true := by
  have hA2 : ∀ x ∈ apiHotels api, isStrName x.name = true := by
    intro x hx
    exact List.all_eq_true.mp hA x hx
  have hL2 : ∀ x ∈ llmHotels llm, isStrOrAbsentName x.name = true := by
    intro x hx
    exact List.all_eq_true.mp hL x hx
  simp only [verify_grounding]
  by_cases hemp : apiHotels api = []
  · rw [if_pos hemp]
    rfl
  · rw [if_neg hemp]
    by_cases hl : llmHotels llm = []
    · rw [if_pos hl]
      rfl
    · rw [if_neg hl]
      obtain ⟨m, hm⟩ := buildApiMap_ok (apiHotels api) hA2 []
      rw [hm, ok_bind]
      have hper := perClaimAll_ok (apiHotels api) m hA2 (llmHotels llm) hL2
      rcases hp : perClaimAll (apiHotels api) m (llmHotels llm) with e | rest
      · rw [hp] at hper
        exact absurd hper (by simp [isOkB])
      · rfl

/-- Fact side of the C9 witness: a string-named record with a
non-numeric price. -/
def c9ApiW : ApiData :=
  { top_hotels := some [{ name := some (Value.vStr "abcdef"), price := some (Value.vStr "xyz") }] }

/-- Claim side of the C9 witness: a string-named record with garbage
price and rating values. -/
def c9LlmW : LlmClaims :=
  { top_hotels := some [{ name := some (Value.vStr "abcdef"), price := some (Value.vStr "p$"), rating := some (Value.vStr "bad") }] }

/-- Witness for C9: well-named records with garbage price and rating
values never raise. -/
theorem C9_no_raise_witness :
    ((apiHotels c9ApiW).all (fun x => isStrName x.name) = true) ∧
    ((llmHotels c9LlmW).all (fun x => isStrOrAbsentName x.name) = true) ∧
    isOkB (verify_grounding c9ApiW c9LlmW) = true :=
  ⟨by decide, by decide, C9_no_raise c9ApiW c9LlmW (by decide) (by decide)⟩

/-! ## Claim C3 -/

/-- Price checks emit only kinds from the amended critical set. -/
theorem priceChecks_kinds (nm : String) (lh mh : Hotel) :
    ∀ i ∈ priceChecks nm lh mh, i.kind ∈ criticalKindsAmended := by
  intro i hi
  unfold priceChecks at hi
  split at hi
  · split at hi
    · split at hi <;> simp_all [Issue.kind, criticalKindsAmended]
    · simp_all [Issue.kind, criticalKindsAmended]
  · simp at hi

/-- Rating checks emit only kinds from the amended critical set. -/
theorem ratingChecks_kinds (nm : String) (lh mh : Hotel) :
    ∀ i ∈ ratingChecks nm lh mh, i.kind ∈ criticalKindsAmended := by
  intro i hi
  unfold ratingChecks at hi
  split at hi
  · split at hi
    · split at hi <;> simp_all [Issue.kind, criticalKindsAmended]
    · simp at hi
  · simp at hi

/-- One claim only yields kinds from the amended critical set. -/
theorem checkClaim_kinds (apiL : List Hotel) (m : List (String × Hotel)) (lh : Hotel)
    (is : List Issue) (h : checkClaim apiL m lh = Except.ok is) :
    ∀ i ∈ is, i.kind ∈ criticalKindsAmended := by
  unfold checkClaim at h
  rcases hs : pyStripVal (lh.name.getD (Value.vStr "")) with e | nm <;> rw [hs] at h
  · rw [error_bind] at h
    exact absurd h (by simp)
  · rw [ok_bind] at h
    split at h
    · injection h with h
      subst h
      simp [Issue.kind, criticalKindsAmended]
    · split at h
      · injection h with h
        subst h
        intro i hi
        rcases List.mem_append.mp hi with h1 | h2
        · exact priceChecks_kinds _ _ _ i h1
        · exact ratingChecks_kinds _ _ _ i h2
      · split at h
        · injection h with h
          subst h
          intro i hi
          rcases List.mem_append.mp hi with h1 | h2
          · exact priceChecks_kinds _ _ _ i h1
          · exact ratingChecks_kinds _ _ _ i h2
        · rcases hj : pyJoinComma ((apiL.take 3).map (fun h => h.name.getD Value.vNone)) with
            e | r <;> rw [hj] at h
          · rw [error_bind] at h
            exact absurd h (by simp)
          · rw [ok_bind] at h
            injection h with h
            subst h
            simp [Issue.kind, criticalKindsAmended]

/-- The claim loop only yields kinds from the amended critical set. -/
theorem perClaimAll_kinds (apiL : List Hotel) (m : List (String × Hotel)) :
    ∀ (l : List Hotel) (is : List Issue), perClaimAll apiL m l = Except.ok is →
      ∀ i ∈ is, i.kind ∈ criticalKindsAmended := by
  intro l
  induction l with
  | nil =>
    intro is h
    injection h with h
    subst h
    simp
  | cons a t ih =>
    intro is h
    unfold perClaimAll at h
    rcases hc : checkClaim apiL m a with e | ia <;> rw [hc] at h
    · rw [error_bind] at h
      exact absurd h (by simp)
    · rw [ok_bind] at h
      rcases hp : perClaimAll apiL m t with e | r <;> rw [hp] at h
      · rw [error_bind] at h
        exact absurd h (by simp)
      · rw [ok_bind] at h
        injection h with h
        subst h
        intro i hi
        rcases List.mem_append.mp hi with h1 | h2
        · exact checkClaim_kinds apiL m a ia hc i h1
        · exact ih r hp i h2

/-- Every issue of the Grounding Verifier carries a kind from the amended
critical set. -/
theorem verify_grounding_kinds (api : ApiData) (llm : LlmClaims) (g : List Issue)
    (h : verify_grounding api llm = Except.ok g) :
    ∀ i ∈ g, i.kind ∈ criticalKindsAmended := by
  simp only [verify_grounding] at h
  split at h
  · injection h with h
    subst h
    split <;> simp [Issue.kind, criticalKindsAmended]
  · split at h
    · injection h with h
      subst h
      split <;> simp [Issue.kind, criticalKindsAmended]
    · rcases hm : buildApiMap [] (apiHotels api) with e | m <;> rw [hm] at h
      · rw [error_bind] at h
        exact absurd h (by simp)
      · rw [ok_bind] at h
        rcases hp : perClaimAll (apiHotels api) m (llmHotels llm) with e | rest <;>
          rw [hp] at h
        · rw [error_bind] at h
          exact absurd h (by simp)
        · rw [ok_bind] at h
          injection h with h
          subst h
          intro i hi
          rcases List.mem_append.mp hi with h1 | h2
          · revert h1
            split
            · intro h1
              simp only [List.mem_singleton] at h1
              subst h1
              simp [Issue.kind, criticalKindsAmended]
            · intro h1
              simp at h1
          · exact perClaimAll_kinds (apiHotels api) m (llmHotels llm) rest hp i h2

/-- A missing-name issue witnesses a hotel with a falsy name. -/
theorem missingNameIssues_mem :
    ∀ (l : List Hotel) (k : Nat) (i : Issue), i ∈ missingNameIssues k l →
      ∃ x ∈ l, pyTruthy (getVal x.name) = false := by
  intro l
  induction l with
  | nil =>
    intro k i hi
    simp [missingNameIssues] at hi
  | cons a t ih =>
    intro k i hi
    unfold missingNameIssues at hi
    rcases List.mem_append.mp hi with h1 | h2
    · revert h1
      split
      · intro h1
        simp at h1
      · intro h1
        rename_i hf
        exact ⟨a, by simp, Bool.not_eq_true _ ▸ hf⟩
    · obtain ⟨x, hx, hxf⟩ := ih k.succ i h2
      exact ⟨x, by simp [hx], hxf⟩

/-- The per-hotel logical checks only emit `InvalidRange`. -/
theorem logicalIssues_kinds (x : Hotel) :
    ∀ i ∈ logicalIssues x, i.kind = Kind.invalidRange := by
  intro i hi
  unfold logicalIssues at hi
  rcases List.mem_append.mp hi with h1 | h2
  · revert h1
    split
    · split
      · split <;> (intro h1; simp_all [Issue.kind])
      · intro h1
        simp at h1
    · intro h1
      simp at h1
  · revert h2
    split
    · split
      · split <;> (intro h2; simp_all [Issue.kind])
      · intro h2
        simp at h2
    · intro h2
      simp at h2

/-- A consistency issue with a kind in the amended critical set can only
be a missing-name issue, so it witnesses a claim hotel with a falsy name. -/
theorem check_consistency_critical (llm : LlmClaims) (c : List Issue)
    (h : check_consistency llm = Except.ok c) :
    ∀ i ∈ c, i.kind ∈ criticalKindsAmended →
      ∃ x ∈ llmHotels llm, pyTruthy (getVal x.name) = false := by
  simp only [check_consistency] at h
  rcases hn : consistencyNames (llmHotels llm) with e | names <;> rw [hn] at h
  · rw [error_bind] at h
    exact absurd h (by simp)
  · rw [ok_bind] at h
    injection h with h
    subst h
    intro i hi hcrit
    rcases List.mem_append.mp hi with h12 | h3
    · rcases List.mem_append.mp h12 with h1 | h2
      · revert h1
        split
        · intro h1
          simp only [List.mem_singleton] at h1
          subst h1
          simp [Issue.kind, criticalKindsAmended] at hcrit
        · intro h1
          simp at h1
      · exact missingNameIssues_mem (llmHotels llm) 0 i h2
    · rw [List.mem_flatMap] at h3
      obtain ⟨x, _, hix⟩ := h3
      have := logicalIssues_kinds x i hix
      rw [this] at hcrit
      simp [criticalKindsAmended] at hcrit

/-- Plausibility concerns never carry a kind from the amended critical
set. -/
theorem check_plausibility_not_critical (llm : LlmClaims) :
    ∀ i ∈ check_plausibility llm, i.kind ∉ criticalKindsAmended := by
  intro i hi
  simp only [check_plausibility] at hi
  split at hi
  · simp at hi
  · rcases List.mem_append.mp hi with h1 | h2
    · revert h1
      split
      · intro h1
        rcases List.mem_append.mp h1 with hAB | hC
        · rcases List.mem_append.mp hAB with hA | hB
          · revert hA
            split <;> (intro hA; simp_all [Issue.kind, criticalKindsAmended])
          · revert hB
            split <;> (intro hB; simp_all [Issue.kind, criticalKindsAmended])
        · revert hC
          split <;> (intro hC; simp_all [Issue.kind, criticalKindsAmended])
      · intro h1
        simp at h1
    · revert h2
      split
      · split <;> (intro h2; simp_all [Issue.kind, criticalKindsAmended])
      · intro h2
        simp at h2

/-- Misinformation patterns never carry a kind from the amended critical
set. -/
theorem misinformation_not_critical (text : String) (api : ApiData) :
    ∀ i ∈ detect_misinformation_patterns text api, i.kind ∉ criticalKindsAmended := by
  intro i hi
  simp only [detect_misinformation_patterns] at hi
  split at hi
  · simp at hi
  · rcases List.mem_append.mp hi with h12 | h3
    · rcases List.mem_append.mp h12 with h1 | h2
      · revert h1
        split <;> (intro h1; simp_all [Issue.kind, criticalKindsAmended])
      · revert h2
        split <;> (intro h2; simp_all [Issue.kind, criticalKindsAmended])
    · revert h3
      split <;> (intro h3; simp_all [Issue.kind, criticalKindsAmended])

/-- A claim with a falsy name always contributes at least one issue
(its MissingName flag) when its `checkClaim` run succeeds. -/
theorem checkClaim_missing (apiL : List Hotel) (m : List (String × Hotel)) (a : Hotel)
    (ia : List Issue) (hf : pyTruthy (getVal a.name) = false)
    (h : checkClaim apiL m a = Except.ok ia) : ia ≠ [] := by
  unfold checkClaim at h
  rcases hn : a.name with _ | v
  · rw [hn] at h
    simp only [Option.getD_none] at h
    rw [show pyStripVal (Value.vStr "") = Except.ok "" from by decide, ok_bind,
      if_pos rfl] at h
    injection h with h
    subst h
    simp
  · rcases v with _ | s | q
    · rw [hn] at h
      simp only [Option.getD_some] at h
      rw [show pyStripVal Value.vNone = Except.error PyError.attributeError from rfl,
        error_bind] at h
      exact absurd h (by simp)
    · rw [hn] at hf h
      have hs : s = "" := by
        simp [getVal, pyTruthy] at hf
        exact hf
      subst hs
      simp only [Option.getD_some] at h
      rw [show pyStripVal (Value.vStr "") = Except.ok "" from by decide, ok_bind,
        if_pos rfl] at h
      injection h with h
      subst h
      simp
    · rw [hn] at h
      simp only [Option.getD_some] at h
      rw [show pyStripVal (Value.vNum q) = Except.error PyError.attributeError from rfl,
        error_bind] at h
      exact absurd h (by simp)

/-- The claim loop output is non-empty whenever some claim has a falsy
name. -/
theorem perClaimAll_missing (apiL : List Hotel) (m : List (String × Hotel)) :
    ∀ (l : List Hotel) (rest : List Issue) (x : Hotel), x ∈ l →
      pyTruthy (getVal x.name) = false → perClaimAll apiL m l = Except.ok rest →
      rest ≠ [] := by
  intro l
  induction l with
  | nil =>
    intro rest x hx
    simp at hx
  | cons a t ih =>
    intro rest x hx hxf h
    unfold perClaimAll at h
    rcases hc : checkClaim apiL m a with e | ia <;> rw [hc] at h
    · rw [error_bind] at h
      exact absurd h (by simp)
    · rw [ok_bind] at h
      rcases hp : perClaimAll apiL m t with e | r <;> rw [hp] at h
      · rw [error_bind] at h
        exact absurd h (by simp)
      · rw [ok_bind] at h
        injection h with h
        subst h
        rcases List.mem_cons.mp hx with rfl | hxt
        · intro hemp
          exact checkClaim_missing apiL m x ia hxf hc (List.append_eq_nil.mp hemp).1
        · intro hemp
          exact ih r x hxt hxf hp (List.append_eq_nil.mp hemp).2

/-- The Grounding Verifier reports at least one issue whenever some claim
hotel has a falsy name. -/
theorem grounding_flags_missing (api : ApiData) (llm : LlmClaims) (g : List Issue)
    (h : verify_grounding api llm = Except.ok g)
    (x : Hotel) (hxl : x ∈ llmHotels llm) (hxf : pyTruthy (getVal x.name) = false) :
    g ≠ [] := by
  simp only [verify_grounding] at h
  split at h
  · rw [if_pos (List.ne_nil_of_mem hxl)] at h
    injection h with h
    subst h
    simp
  · split at h
    · rename_i hle
      rw [hle] at hxl
      simp at hxl
    · rcases hm : buildApiMap [] (apiHotels api) with e | m <;> rw [hm] at h
      · rw [error_bind] at h
        exact absurd h (by simp)
      · rw [ok_bind] at h
        rcases hp : perClaimAll (apiHotels api) m (llmHotels llm) with e | rest <;>
          rw [hp] at h
        · rw [error_bind] at h
          exact absurd h (by simp)
        · rw [ok_bind] at h
          injection h with h
          subst h
          intro hemp
          exact perClaimAll_missing (apiHotels api) m (llmHotels llm) rest x hxl hxf hp
            (List.append_eq_nil.mp hemp).2

/-- C3 counterexample.  The claim states `hasCriticalIssues` is true iff
the merged list contains an issue whose kind lies in the spec critical
set {HallucinatedEntity, PriceContradiction, RatingContradiction,
CountMismatch, InvalidFormat}.  On a turn whose single defect is a
blank-named claim hotel, the Grounding Verifier emits a `MissingName`
issue, the flag is set, and yet no merged issue carries a kind from that
set. -/
theorem C3_summary_counterexample :
    comprehensive_check { top_hotels := some [{ name := some (Value.vStr "abcdef") }] }
        { top_hotels := some [{ name := some (Value.vStr "") }] } "" =
      Except.ok ([Issue.missingName, Issue.missingNameAt 0], ⟨2, 1, 1, 0, 0, true, "LOW"⟩) ∧
    (Summary.mk 2 1 1 0 0 true "LOW").has_critical_issues = true ∧
    ([Issue.missingName, Issue.missingNameAt 0].any
      (fun i => decide (i.kind ∈ criticalKinds))) = false := by
  refine ⟨by decide, rfl, by decide⟩

/-- C3 (corrected).  Amended claim: `hasCriticalIssues` is true iff the
merged issue list contains at least one issue whose kind is in the
AMENDED critical set {HallucinatedEntity, PriceContradiction,
RatingContradiction, CountMismatch, InvalidFormat, MissingName} (exactly
the kinds the Grounding Verifier can emit — the grounding `MissingName`
finding also trips the flag); and the confidence label is HIGH iff the
total issue count is zero, else LOW. -/
theorem C3_summary (api : ApiData) (llm : LlmClaims) (text : String)
    (issues : List Issue) (sm : Summary)
    (h : comprehensive_check api llm text = Except.ok (issues, sm)) :
    sm.has_critical_issues = issues.any (fun i => decide (i.kind ∈ criticalKindsAmended)) ∧
    sm.confidence = (if issues = [] then "HIGH" else "LOW") := by
  simp only [comprehensive_check] at h
  rcases hg : verify_grounding api llm with e | g <;> rw [hg] at h
  · rw [error_bind] at h
    exact absurd h (by simp)
  · rw [ok_bind] at h
    rcases hc : check_consistency llm with e | c <;> rw [hc] at h
    · rw [error_bind] at h
      exact absurd h (by simp)
    · rw [ok_bind] at h
      injection h with h
      injection h with h1 h2
      subst h1
      subst h2
      constructor
      · show decide (g.length > 0) =
          (g ++ c ++ check_plausibility llm ++
            (if text ≠ "" then detect_misinformation_patterns text api else [])).any
            (fun i => decide (i.kind ∈ criticalKindsAmended))
        by_cases hg0 : g = []
        · subst hg0
          rw [show (decide (([] : List Issue).length > 0)) = false from rfl]
          symm
          rw [List.any_eq_false]
          intro i hi
          simp only [decide_eq_true_eq]
          intro hcrit2
          rcases List.mem_append.mp hi with h12 | h3
          · rcases List.mem_append.mp h12 with h1 | hip
            · rcases List.mem_append.mp h1 with hig | hic
              · simp at hig
              · obtain ⟨x, hxl, hxf⟩ := check_consistency_critical llm c hc i hic hcrit2
                exact grounding_flags_missing api llm [] hg x hxl hxf rfl
            · exact check_plausibility_not_critical llm i hip hcrit2
          · revert h3
            split
            · intro h3
              exact misinformation_not_critical text api i h3 hcrit2
            · intro h3
              simp at h3
        · have hlen : decide (g.length > 0) = true := by
            rw [decide_eq_true_eq]
            rcases g with _ | ⟨i0, g2⟩
            · exact absurd rfl hg0
            · simp
          rw [hlen]
          symm
          rw [List.any_eq_true]
          obtain ⟨i0, hi0⟩ : ∃ i, i ∈ g := by
            rcases g with _ | ⟨i0, g2⟩
            · exact absurd rfl hg0
            · exact ⟨i0, by simp⟩
          refine ⟨i0, ?_, ?_⟩
          · exact List.mem_append.mpr (Or.inl (List.mem_append.mpr
              (Or.inl (List.mem_append.mpr (Or.inl hi0)))))
          · exact decide_eq_true (verify_grounding_kinds api llm g hg i0 hi0)
      · show (if (g ++ c ++ check_plausibility llm ++
            (if text ≠ "" then detect_misinformation_patterns text api else [])).length = 0
            then "HIGH" else "LOW") =
          (if (g ++ c ++ check_plausibility llm ++
            (if text ≠ "" then detect_misinformation_patterns text api else [])) = []
            then "HIGH" else "LOW")
        by_cases hz : (g ++ c ++ check_plausibility llm ++
            (if text ≠ "" then detect_misinformation_patterns text api else [])) = []
        · rw [if_pos hz, if_pos (by rw [hz]; rfl)]
        · rw [if_neg hz, if_neg (fun hlen => hz (List.length_eq_zero.mp hlen))]

/-- Witness for C3 at the counterexample turn: the flag equals the
amended-set membership test and the confidence label is LOW. -/
theorem C3_summary_witness :
    comprehensive_check { top_hotels := some [{ name := some (Value.vStr "abcdef") }] }
        { top_hotels := some [{ name := some (Value.vStr "") }] } "" =
      Except.ok ([Issue.missingName, Issue.missingNameAt 0], ⟨2, 1, 1, 0, 0, true, "LOW"⟩) ∧
    ((Summary.mk 2 1 1 0 0 true "LOW").has_critical_issues =
      ([Issue.missingName, Issue.missingNameAt 0].any
        (fun i => decide (i.kind ∈ criticalKindsAmended))) ∧
     (Summary.mk 2 1 1 0 0 true "LOW").confidence =
      (if ([Issue.missingName, Issue.missingNameAt 0] : List Issue) = []
        then "HIGH" else "LOW")) :=
  ⟨by decide,
    C3_summary { top_hotels := some [{ name := some (Value.vStr "abcdef") }] }
      { top_hotels := some [{ name := some (Value.vStr "") }] } ""
      [Issue.missingName, Issue.missingNameAt 0] ⟨2, 1, 1, 0, 0, true, "LOW"⟩ (by decide)⟩
